import Mathlib

/-!
Shallow embedding of the customer-intelligence-pipeline repository
(segment definition validation, segment evaluation, campaign draft
generation, event ingestion, draft status patching, and the smart-assist
mock providers), together with proofs checking the specification's claims
against the embedded code.

Conventions of the embedding:
* TypeScript strings are Lean `String`s; JavaScript `String.prototype.trim`
  is modelled by `jsTrim` over the JS whitespace character class.
* Parsed JSON values are modelled by the inductive `Json`; JS numbers are
  modelled as rationals (`Rat`), with `Number.isInteger` becoming a
  denominator-one test. NaN/Infinity are outside the model.
* Database rows (Prisma models) are Lean structures; the database is the
  `Store` structure holding the tables as lists in insertion order.
  Prisma-generated ids (cuids) are modelled as `Nat`s handed out by a
  counter; only equality of ids is ever used by the code.
* Timestamps are `Int` milliseconds; `new Date(Date.now() - N_MS)`
  becomes subtraction on `Int`.
-/

namespace CIPipeline

/-- The JavaScript whitespace class (`\s`, also used by `trim()`),
as Unicode code points. -/
def jsWsCodes : List Nat :=
  [9, 10, 11, 12, 13, 32, 160, 0x1680, 0x2000, 0x2001, 0x2002, 0x2003,
   0x2004, 0x2005, 0x2006, 0x2007, 0x2008, 0x2009, 0x200a, 0x2028,
   0x2029, 0x202f, 0x205f, 0x3000, 0xfeff]

/-- Whether a character is JavaScript whitespace. -/
def isJsWs (c : Char) : Bool := c.toNat ∈ jsWsCodes

/-- `String.prototype.trim` on the character list: drop leading and
trailing JS whitespace. -/
def jsTrimList (l : List Char) : List Char :=
  ((l.dropWhile isJsWs).reverse.dropWhile isJsWs).reverse

/-- JavaScript `s.trim()`. -/
def jsTrim (s : String) : String :=
  (jsTrimList s.toList).asString

lemma dropWhile_head_not {p : α → Bool} {l : List α} :
    ∀ x ∈ (l.dropWhile p).head?, p x = false := by
  induction l with
  | nil => intro x hx; simp [List.dropWhile] at hx
  | cons a l ih =>
    intro x hx
    by_cases h : p a
    · rw [List.dropWhile_cons, if_pos h] at hx
      exact ih x hx
    · rw [List.dropWhile_cons, if_neg h] at hx
      simp only [List.head?_cons, Option.mem_def, Option.some.injEq] at hx
      subst hx
      simpa using h

lemma dropWhile_eq_self_of_head {p : α → Bool} {l : List α}
    (h : ∀ x ∈ l.head?, p x = false) : l.dropWhile p = l := by
  cases l with
  | nil => rfl
  | cons a l =>
    have : p a = false := h a (by simp)
    simp [List.dropWhile_cons, this]

/-- The head of a trim result is not whitespace. -/
lemma jsTrimList_head (l : List Char) :
    ∀ x ∈ (jsTrimList l).head?, isJsWs x = false := by
  intro x hx
  unfold jsTrimList at hx
  rw [List.head?_reverse] at hx
  rcases hbe : (l.dropWhile isJsWs).reverse.dropWhile isJsWs with _ | ⟨y, ys⟩
  · rw [hbe] at hx; simp at hx
  · obtain ⟨t, ht⟩ := List.dropWhile_suffix (l := (l.dropWhile isJsWs).reverse) isJsWs
    have hgl : ((l.dropWhile isJsWs).reverse.dropWhile isJsWs).getLast?
        = (l.dropWhile isJsWs).reverse.getLast? := by
      conv_rhs => rw [← ht]
      rw [List.getLast?_append_of_ne_nil _ (by rw [hbe]; simp)]
    rw [hgl, List.getLast?_reverse] at hx
    exact dropWhile_head_not x hx

/-- The last element of a trim result is not whitespace. -/
lemma jsTrimList_getLast (l : List Char) :
    ∀ x ∈ (jsTrimList l).getLast?, isJsWs x = false := by
  intro x hx
  unfold jsTrimList at hx
  rw [List.getLast?_reverse] at hx
  exact dropWhile_head_not x hx

/-- `jsTrimList` is idempotent. -/
lemma jsTrimList_idem (l : List Char) : jsTrimList (jsTrimList l) = jsTrimList l := by
  conv_lhs => rw [jsTrimList]
  rw [dropWhile_eq_self_of_head (jsTrimList_head l)]
  have : (jsTrimList l).reverse.dropWhile isJsWs = (jsTrimList l).reverse := by
    apply dropWhile_eq_self_of_head
    intro x hx
    rw [List.head?_reverse] at hx
    exact jsTrimList_getLast l x hx
  rw [this, List.reverse_reverse]

/-- `jsTrim` is idempotent: a trimmed string trims to itself. -/
lemma jsTrim_idem (s : String) : jsTrim (jsTrim s) = jsTrim s := by
  unfold jsTrim
  congr 1
  have : (jsTrimList s.toList).asString.toList = jsTrimList s.toList := rfl
  rw [this, jsTrimList_idem]

/-- Parsed JSON values (the result of `JSON.parse` / a Prisma `Json` column). -/
inductive Json where
  | null : Json
  | bool : Bool → Json
  | num : Rat → Json
  | str : String → Json
  | arr : List Json → Json
  | obj : List (String × Json) → Json

/-- Field projection on a JSON object (JS property access `d.field`);
`none` models `undefined`. -/
def Json.get? : Json → String → Option Json
  | .obj fields, k => fields.lookup k
  | _, _ => none

/-- Whether a parsed JSON value is the literal `null` (the one JSON value
on which JS object destructuring throws a TypeError). -/
def Json.isNull : Json → Bool
  | .null => true
  | _ => false

-- ── Segment definition types (src/lib/segments.ts) ──

/-- The three segment-definition variants (the `SegmentDefinition` union). -/
inductive SegmentDefinition where
  | eventTypeInLastDays (eventType : String) (days : Nat)
  | eventPropertyEquals (eventType : String) (path : String) (value : String) (days : Nat)
  | eventCountGteInLastDays (eventType : String) (days : Nat) (minCount : Nat)
deriving DecidableEq, Repr

/-- `typeof x === "number" && Number.isInteger(x) && x > 0` on the JSON
number model. -/
def isPositiveInt (q : Rat) : Bool := q.den == 1 && q.num > 0

/-- `validateEventTypeInLastDays` (src/lib/segments.ts). -/
def validateEventTypeInLastDays (d : List (String × Json)) :
    Except String SegmentDefinition :=
  match d.lookup "eventType" with
  | some (.str et) =>
    if jsTrim et == "" then .error "eventType must be a non-empty string"
    else
      match d.lookup "days" with
      | some (.num q) =>
        if isPositiveInt q then
          .ok (.eventTypeInLastDays (jsTrim et) q.num.toNat)
        else .error "days must be a positive integer"
      | _ => .error "days must be a positive integer"
  | _ => .error "eventType must be a non-empty string"

/-- `validateEventPropertyEquals` (src/lib/segments.ts).  Note: the source
trims `eventType` and `path` but stores `value` verbatim
(`value: d.value`, no `.trim()`). -/
def validateEventPropertyEquals (d : List (String × Json)) :
    Except String SegmentDefinition :=
  match d.lookup "eventType" with
  | some (.str et) =>
    if jsTrim et == "" then .error "eventType must be a non-empty string"
    else
      match d.lookup "path" with
      | some (.str p) =>
        if jsTrim p == "" then .error "path must be a non-empty string"
        else
          match d.lookup "value" with
          | some (.str v) =>
            match d.lookup "days" with
            | some (.num q) =>
              if isPositiveInt q then
                .ok (.eventPropertyEquals (jsTrim et) (jsTrim p) v q.num.toNat)
              else .error "days must be a positive integer"
            | _ => .error "days must be a positive integer"
          | _ => .error "value must be a string"
      | _ => .error "path must be a non-empty string"
  | _ => .error "eventType must be a non-empty string"

/-- `validateEventCountGteInLastDays` (src/lib/segments.ts). -/
def validateEventCountGteInLastDays (d : List (String × Json)) :
    Except String SegmentDefinition :=
  match d.lookup "eventType" with
  | some (.str et) =>
    if jsTrim et == "" then .error "eventType must be a non-empty string"
    else
      match d.lookup "days" with
      | some (.num q) =>
        if isPositiveInt q then
          match d.lookup "minCount" with
          | some (.num m) =>
            if isPositiveInt m then
              .ok (.eventCountGteInLastDays (jsTrim et) q.num.toNat m.num.toNat)
            else .error "minCount must be a positive integer"
          | _ => .error "minCount must be a positive integer"
        else .error "days must be a positive integer"
      | _ => .error "days must be a positive integer"
  | _ => .error "eventType must be a non-empty string"

/-- `validateSegmentDefinition` (src/lib/segments.ts): parse an untrusted
JSON value into one of the three variants or an error string. -/
def validateSegmentDefinition (def_ : Json) : Except String SegmentDefinition :=
  match def_ with
  | .obj d =>
    match d.lookup "kind" with
    | some (.str kind) =>
      if kind == "event_type_in_last_days" then validateEventTypeInLastDays d
      else if kind == "event_property_equals" then validateEventPropertyEquals d
      else if kind == "event_count_gte_in_last_days" then validateEventCountGteInLastDays d
      else .error ("Unknown definition kind: '" ++ kind ++ "'")
    | _ => .error "Definition must have a 'kind' field"
  | _ => .error "Definition must be a JSON object"

/-- The `eventType` field common to all three variants. -/
def SegmentDefinition.eventTypeOf : SegmentDefinition → String
  | .eventTypeInLastDays et _ => et
  | .eventPropertyEquals et _ _ _ => et
  | .eventCountGteInLastDays et _ _ => et

lemma validateETILD_ok {d : List (String × Json)} {defn : SegmentDefinition}
    (h : validateEventTypeInLastDays d = .ok defn) :
    ∃ et q, d.lookup "eventType" = some (.str et) ∧
      d.lookup "days" = some (.num q) ∧
      defn = .eventTypeInLastDays (jsTrim et) q.num.toNat := by
  unfold validateEventTypeInLastDays at h
  repeat' split at h
  all_goals first
    | (injection h with h'; subst h'; exact ⟨_, _, by assumption, by assumption, rfl⟩)
    | (injection h with h'; exact ⟨_, _, by assumption, by assumption, h'.symm⟩)
    | cases h

lemma validateEPE_ok {d : List (String × Json)} {defn : SegmentDefinition}
    (h : validateEventPropertyEquals d = .ok defn) :
    ∃ et p v q, d.lookup "eventType" = some (.str et) ∧
      d.lookup "path" = some (.str p) ∧
      d.lookup "value" = some (.str v) ∧
      d.lookup "days" = some (.num q) ∧
      defn = .eventPropertyEquals (jsTrim et) (jsTrim p) v q.num.toNat := by
  unfold validateEventPropertyEquals at h
  repeat' split at h
  all_goals first
    | (injection h with h'; subst h'
       exact ⟨_, _, _, _, by assumption, by assumption, by assumption, by assumption, rfl⟩)
    | (injection h with h'
       exact ⟨_, _, _, _, by assumption, by assumption, by assumption, by assumption, h'.symm⟩)
    | cases h

lemma validateECG_ok {d : List (String × Json)} {defn : SegmentDefinition}
    (h : validateEventCountGteInLastDays d = .ok defn) :
    ∃ et q m, d.lookup "eventType" = some (.str et) ∧
      d.lookup "days" = some (.num q) ∧
      d.lookup "minCount" = some (.num m) ∧
      isPositiveInt m = true ∧
      defn = .eventCountGteInLastDays (jsTrim et) q.num.toNat m.num.toNat := by
  unfold validateEventCountGteInLastDays at h
  repeat' split at h
  all_goals first
    | (injection h with h'; subst h'
       exact ⟨_, _, _, by assumption, by assumption, by assumption, by assumption, rfl⟩)
    | (injection h with h'
       exact ⟨_, _, _, by assumption, by assumption, by assumption, by assumption, h'.symm⟩)
    | cases h

lemma validateSegmentDefinition_ok {j : Json} {defn : SegmentDefinition}
    (h : validateSegmentDefinition j = .ok defn) :
    ∃ d, j = .obj d ∧
      (validateEventTypeInLastDays d = .ok defn ∨
       validateEventPropertyEquals d = .ok defn ∨
       validateEventCountGteInLastDays d = .ok defn) := by
  cases j with
  | obj d =>
    refine ⟨d, rfl, ?_⟩
    simp only [validateSegmentDefinition] at h
    split at h
    · split at h
      · exact Or.inl h
      · split at h
        · exact Or.inr (Or.inl h)
        · split at h
          · exact Or.inr (Or.inr h)
          · cases h
    · cases h
  | null => cases h
  | bool b => cases h
  | num q => cases h
  | str s => cases h
  | arr l => cases h

/-- A concrete `event_property_equals` input whose `value` carries
leading/trailing spaces. -/
def c2Input : Json :=
  .obj [("kind", .str "event_property_equals"),
        ("eventType", .str "page_view"),
        ("path", .str "path"),
        ("value", .str " y "),
        ("days", .num 7)]

/-- C2 counterexample: the validator accepts `c2Input` and returns the
`value` field verbatim as `" y "`, which still carries its surrounding
whitespace — so not every string field of an accepted definition is
trimmed. -/
theorem c2_value_not_trimmed :
    validateSegmentDefinition c2Input
      = .ok (.eventPropertyEquals "page_view" "path" " y " 7) ∧
    jsTrim " y " ≠ " y " := by
  constructor
  · rfl
  · intro h
    have : (jsTrim " y ").length = (" y " : String).length := by rw [h]
    revert this
    decide

/-- C2 (amended): for every input accepted by `validateSegmentDefinition`,
the returned `eventType` (all variants) and `path` (property variant) are
trimmed of leading and trailing whitespace, while `value` is accepted
verbatim, equal to the raw `value` field of the input (not trimmed). -/
theorem c2_string_fields_trimmed (j : Json) (defn : SegmentDefinition)
    (h : validateSegmentDefinition j = .ok defn) :
    jsTrim defn.eventTypeOf = defn.eventTypeOf ∧
    (∀ et p v days, defn = .eventPropertyEquals et p v days →
      jsTrim p = p ∧ j.get? "value" = some (.str v)) := by
  obtain ⟨d, rfl, hcase⟩ := validateSegmentDefinition_ok h
  rcases hcase with h1 | h2 | h3
  · obtain ⟨et, q, _, _, rfl⟩ := validateETILD_ok h1
    refine ⟨jsTrim_idem et, ?_⟩
    intro _ _ _ _ hcontra
    cases hcontra
  · obtain ⟨et, p, v, q, _, _, hval, _, rfl⟩ := validateEPE_ok h2
    refine ⟨jsTrim_idem et, ?_⟩
    intro et' p' v' days' heq
    injection heq with h1 h2 h3 h4
    subst h2; subst h3
    exact ⟨jsTrim_idem p, by simpa [Json.get?] using hval⟩
  · obtain ⟨et, q, m, _, _, _, _, rfl⟩ := validateECG_ok h3
    refine ⟨jsTrim_idem et, ?_⟩
    intro _ _ _ _ hcontra
    cases hcontra

/-- Witness for `c2_string_fields_trimmed` at the concrete input
`c2Input`. -/
theorem c2_string_fields_trimmed_witness :
    validateSegmentDefinition c2Input
      = .ok (.eventPropertyEquals "page_view" "path" " y " 7) ∧
    (jsTrim (SegmentDefinition.eventPropertyEquals "page_view" "path" " y " 7).eventTypeOf
      = (SegmentDefinition.eventPropertyEquals "page_view" "path" " y " 7).eventTypeOf ∧
    (∀ et p v days,
      (SegmentDefinition.eventPropertyEquals "page_view" "path" " y " 7)
        = .eventPropertyEquals et p v days →
      jsTrim p = p ∧ c2Input.get? "value" = some (.str v))) :=
  ⟨rfl, c2_string_fields_trimmed c2Input _ rfl⟩

-- ── Smart-draft mock provider (src/lib/smartDraft/mock.ts) ──

/-- `DraftInput` (src/lib/smartDraft/types.ts): `recentEventType?: string`
and `recommendedSku?: string | null` become options. -/
structure DraftInput where
  customerEmail : String
  recentEventType : Option String
  recommendedSku : Option String

structure DraftOutput where
  subject : String
  body : String
deriving DecidableEq

/-- JS truthiness of an optional string field: `undefined`/`null`/`""` are
falsy, non-empty strings truthy. -/
def strTruthy : Option String → Bool
  | some s => !(s == "")
  | none => false

/-- `formatEventType` (src/lib/smartDraft/mock.ts):
`eventType.replace(/_/g, " ")`. -/
def formatEventType (eventType : String) : String :=
  (eventType.toList.map (fun c => if c == '_' then ' ' else c)).asString

/-- `MockSmartDraftProvider.generate` (src/lib/smartDraft/mock.ts). -/
def mockSmartDraftGenerate (input : DraftInput) : DraftOutput :=
  let firstName := (input.customerEmail.splitOn "@").headD input.customerEmail
  let activity :=
    if strTruthy input.recentEventType then formatEventType (input.recentEventType.getD "")
    else "recently visited us"
  let sku := input.recommendedSku.getD ""
  if strTruthy input.recommendedSku && strTruthy input.recentEventType then
    { subject := "Still thinking about " ++ sku ++ "?",
      body := "Hi " ++ firstName ++ ",\n\nWe noticed you " ++ activity
        ++ " and showed interest in " ++ sku
        ++ ". Don\x27t let it get away!\n\nShop now →" }
  else if strTruthy input.recommendedSku then
    { subject := "Still thinking about " ++ sku ++ "?",
      body := "Hi " ++ firstName ++ ",\n\nWe think " ++ sku
        ++ " would be perfect for you. Grab it before it\x27s gone!\n\nShop now →" }
  else if strTruthy input.recentEventType then
    { subject := "We have something special for you",
      body := "Hi " ++ firstName ++ ",\n\nThank you for " ++ activity
        ++ ". We\x27d love to help you find what you\x27re looking for.\n\nExplore our latest →" }
  else
    { subject := "We have something special for you",
      body := "Hi " ++ firstName
        ++ ",\n\nWe\x27d love to reconnect and share our latest offerings with you.\n\nExplore now →" }

lemma mockSmartDraft_subject (i : DraftInput) :
    (mockSmartDraftGenerate i).subject =
      if strTruthy i.recommendedSku
      then "Still thinking about " ++ i.recommendedSku.getD "" ++ "?"
      else "We have something special for you" := by
  unfold mockSmartDraftGenerate
  by_cases h1 : strTruthy i.recommendedSku <;>
    by_cases h2 : strTruthy i.recentEventType <;>
    simp [h1, h2]

/-- C10: the subject produced by the mock draft provider depends only on
the `recommendedSku` field — two inputs agreeing on `recommendedSku`
yield identical subjects regardless of email and event type — and the
subject is `"Still thinking about {sku}?"` exactly when `recommendedSku`
is a (truthy) non-empty string, `"We have something special for you"`
otherwise. -/
theorem c10_subject_only_depends_on_sku :
    (∀ i₁ i₂ : DraftInput, i₁.recommendedSku = i₂.recommendedSku →
      (mockSmartDraftGenerate i₁).subject = (mockSmartDraftGenerate i₂).subject) ∧
    (∀ i : DraftInput, (mockSmartDraftGenerate i).subject =
      if strTruthy i.recommendedSku
      then "Still thinking about " ++ i.recommendedSku.getD "" ++ "?"
      else "We have something special for you") := by
  refine ⟨?_, mockSmartDraft_subject⟩
  intro i₁ i₂ h
  rw [mockSmartDraft_subject, mockSmartDraft_subject, h]

/-- Witness for `c10_subject_only_depends_on_sku` at two concrete inputs
that agree on the SKU but differ in email and recent event type. -/
theorem c10_subject_only_depends_on_sku_witness :
    (DraftInput.mk "ann@shop.example" (some "purchase") (some "SKU-1")).recommendedSku
      = (DraftInput.mk "bob@shop.example" none (some "SKU-1")).recommendedSku ∧
    (mockSmartDraftGenerate (DraftInput.mk "ann@shop.example" (some "purchase") (some "SKU-1"))).subject
      = (mockSmartDraftGenerate (DraftInput.mk "bob@shop.example" none (some "SKU-1"))).subject :=
  ⟨rfl, c10_subject_only_depends_on_sku.1 _ _ rfl⟩

-- ── Smart-generate mock provider (src/lib/smartGenerate/mock.ts) ──
-- The regex searches of the source are embedded as explicit left-to-right
-- scanners over the character list: `scanOpt`/`scanB` try a pattern at each
-- start position (leftmost match, like `RegExp.exec`/`test`), and each
-- pattern matcher consumes greedily, which coincides with the regexes used
-- by the source (no pattern there needs interesting backtracking beyond the
-- optional groups, which are tried greedily first).

/-- JS `\d`: ASCII digits. -/
def isDigitCh (c : Char) : Bool := 48 ≤ c.toNat && c.toNat ≤ 57

/-- JS `\w`: ASCII letters, digits and underscore. -/
def isWordCh (c : Char) : Bool :=
  isDigitCh c || (65 ≤ c.toNat && c.toNat ≤ 90) ||
    (97 ≤ c.toNat && c.toNat ≤ 122) || c.toNat == 95

/-- Match a literal character sequence at the start, returning the rest. -/
def stripLit : List Char → List Char → Option (List Char)
  | [], cs => some cs
  | _ :: _, [] => none
  | p :: ps, c :: cs => if c == p then stripLit ps cs else none

/-- Match `\s+` at the start (greedy), returning the rest. -/
def stripWs1 : List Char → Option (List Char)
  | [] => none
  | c :: cs => if isJsWs c then some (cs.dropWhile isJsWs) else none

/-- `parseInt(digits, 10)`. -/
def natOfDigits (ds : List Char) : Nat :=
  ds.foldl (fun n c => 10 * n + (c.toNat - 48)) 0

/-- Capture `(\d+)` at the start (greedy). -/
def digitsCapture (cs : List Char) : Option Nat :=
  let ds := cs.takeWhile isDigitCh
  if ds.isEmpty then none else some (natOfDigits ds)

/-- Try a capture pattern at every position, leftmost match first. -/
def scanOpt (f : List Char → Option α) : List Char → Option α
  | [] => f []
  | c :: cs =>
    match f (c :: cs) with
    | some n => some n
    | none => scanOpt f cs

/-- Try a boolean pattern at every position. -/
def scanB (f : List Char → Bool) : List Char → Bool
  | [] => f []
  | c :: cs => f (c :: cs) || scanB f cs

/-- Literal substring occurrence at a position (for `String.includes` and
plain-literal regexes). -/
def litAt (pat : String) (cs : List Char) : Bool := (stripLit pat.toList cs).isSome

/-- `/at\s+least\s+(\d+)/` anchored at a position. -/
def atLeastAt (cs : List Char) : Option Nat :=
  match stripLit "at".toList cs with
  | none => none
  | some r1 =>
    match stripWs1 r1 with
    | none => none
    | some r2 =>
      match stripLit "least".toList r2 with
      | none => none
      | some r3 =>
        match stripWs1 r3 with
        | none => none
        | some r4 => digitsCapture r4

/-- `/>=\s*(\d+)/` anchored at a position. -/
def gteAt (cs : List Char) : Option Nat :=
  match stripLit ">=".toList cs with
  | none => none
  | some r1 => digitsCapture (r1.dropWhile isJsWs)

/-- `/more\s+than\s+(\d+)/` anchored at a position. -/
def moreThanAt (cs : List Char) : Option Nat :=
  match stripLit "more".toList cs with
  | none => none
  | some r1 =>
    match stripWs1 r1 with
    | none => none
    | some r2 =>
      match stripLit "than".toList r2 with
      | none => none
      | some r3 =>
        match stripWs1 r3 with
        | none => none
        | some r4 => digitsCapture r4

/-- `parseMinCount` (src/lib/smartGenerate/mock.ts): the `at least` regex
is tried first, then `>=`, then `more than` (which adds one); `0` means no
count constraint detected. -/
def parseMinCount (text : String) : Nat :=
  match scanOpt atLeastAt text.toList with
  | some n => n
  | none =>
    match scanOpt gteAt text.toList with
    | some n => n
    | none =>
      match scanOpt moreThanAt text.toList with
      | some n => n + 1
      | none => 0

/-- Common tail `\s+(\d+)\s*lit` of the days/weeks regexes (the trailing
`s?` of `days?`/`weeks?` cannot affect whether a search match exists). -/
def numberThenLitAt (lit : String) (cs : List Char) : Option Nat :=
  match stripWs1 cs with
  | none => none
  | some r1 =>
    let ds := r1.takeWhile isDigitCh
    if ds.isEmpty then none
    else
      match stripLit lit.toList ((r1.dropWhile isDigitCh).dropWhile isJsWs) with
      | some _ => some (natOfDigits ds)
      | none => none

/-- `/(?:last|past|within)\s+(\d+)\s*days?/` anchored at a position. -/
def daysPatAt (cs : List Char) : Option Nat :=
  match stripLit "last".toList cs with
  | some r => numberThenLitAt "day" r
  | none =>
    match stripLit "past".toList cs with
    | some r => numberThenLitAt "day" r
    | none =>
      match stripLit "within".toList cs with
      | some r => numberThenLitAt "day" r
      | none => none

/-- `/(?:last|past)\s+(\d+)\s*weeks?/` anchored at a position. -/
def weeksPatAt (cs : List Char) : Option Nat :=
  match stripLit "last".toList cs with
  | some r => numberThenLitAt "week" r
  | none =>
    match stripLit "past".toList cs with
    | some r => numberThenLitAt "week" r
    | none => none

/-- `parseDays` (src/lib/smartGenerate/mock.ts). -/
def parseDays (text : String) : Nat :=
  match scanOpt daysPatAt text.toList with
  | some n => n
  | none =>
    match scanOpt weeksPatAt text.toList with
    | some n => n * 7
    | none =>
      if scanB (litAt "week") text.toList then 7
      else if scanB (litAt "month") text.toList then 30
      else 30

/-- `/add(?:ed)?\s+to\s+cart/` anchored at a position (optional group tried
greedily first, then skipped, as in JS backtracking). -/
def addToCartAt (cs : List Char) : Bool :=
  match stripLit "add".toList cs with
  | none => false
  | some r1 =>
    let k := fun (r : List Char) =>
      match stripWs1 r with
      | none => false
      | some r2 =>
        match stripLit "to".toList r2 with
        | none => false
        | some r3 =>
          match stripWs1 r3 with
          | none => false
          | some r4 => (stripLit "cart".toList r4).isSome
    (match stripLit "ed".toList r1 with
     | some r2 => k r2
     | none => false) || k r1

/-- `/pre(?:opt)?\s*post/`-shaped patterns (`sign(?:ed)?\s*up`,
`log(?:ged)?\s*in`, `check(?:ed)?\s*out`, `page\s*view`) anchored at a
position. -/
def optMidAt (pre opt post : String) (cs : List Char) : Bool :=
  match stripLit pre.toList cs with
  | none => false
  | some r1 =>
    let k := fun (r : List Char) =>
      (stripLit post.toList (r.dropWhile isJsWs)).isSome
    (match stripLit opt.toList r1 with
     | some r2 => k r2
     | none => false) || k r1

/-- `parseEventType` (src/lib/smartGenerate/mock.ts): keyword table tried in
order, defaulting to `page_view`. -/
def parseEventType (text : String) : String :=
  let cs := text.toList
  if scanB addToCartAt cs then "added_to_cart"
  else if scanB (litAt "purchas") cs then "purchase"
  else if scanB (optMidAt "sign" "ed" "up") cs then "signup"
  else if scanB (optMidAt "log" "ged" "in") cs then "login"
  else if scanB (optMidAt "page" "" "view") cs then "page_view"
  else if scanB (optMidAt "check" "ed" "out") cs then "checkout"
  else "page_view"

/-- `visited\s+\/\w+` / `viewed\s+\/\w+` anchored at a position. -/
def visitedSlashAt (lit : String) (cs : List Char) : Bool :=
  match stripLit lit.toList cs with
  | none => false
  | some r1 =>
    match stripWs1 r1 with
    | none => false
    | some r2 =>
      match r2 with
      | '/' :: r3 => !(r3.takeWhile isWordCh).isEmpty
      | _ => false

/-- The pricing-trigger alternation
`/(?:pricing|\/pricing|visited\s+\/\w+|viewed\s+\/\w+)/` at a position. -/
def pricingTrigAt (cs : List Char) : Bool :=
  (stripLit "pricing".toList cs).isSome || (stripLit "/pricing".toList cs).isSome ||
    visitedSlashAt "visited" cs || visitedSlashAt "viewed" cs

/-- Whether the pricing-trigger regex matches anywhere. -/
def pricingTrigger (text : String) : Bool := scanB pricingTrigAt text.toList

/-- `/\/(\w+)/` anchored at a position: a slash followed by word chars. -/
def slashPathAt (cs : List Char) : Option (List Char) :=
  match cs with
  | '/' :: r =>
    let w := r.takeWhile isWordCh
    if w.isEmpty then none else some w
  | _ => none

/-- The first `/\/(\w+)/` match in the text. -/
def slashPath (text : String) : Option String :=
  (scanOpt slashPathAt text.toList).map (fun w => "/" ++ w.asString)

/-- JS `String.prototype.toLowerCase`, modelled as ASCII per-character
lowercasing. -/
def jsToLower (s : String) : String := (s.toList.map Char.toLower).asString

/-- `MockSmartGenerateProvider.generate` (src/lib/smartGenerate/mock.ts). -/
def smartGenerateMock (prompt : String) : SegmentDefinition :=
  let lower := jsToLower prompt
  let days := parseDays lower
  let minCount := parseMinCount lower
  let eventType := parseEventType lower
  if pricingTrigger lower then
    let path :=
      match slashPath lower with
      | some p => p
      | none => "/pricing"
    .eventPropertyEquals "page_view" "path" path days
  else if minCount > 0 then
    .eventCountGteInLastDays eventType days minCount
  else
    .eventTypeInLastDays eventType days

lemma scanOpt_cons_none {f : List Char → Option α} {c : Char} {cs : List Char}
    (h : f (c :: cs) = none) : scanOpt f (c :: cs) = scanOpt f cs := by
  rw [scanOpt, h]

lemma scanOpt_cons_some {f : List Char → Option α} {c : Char} {cs : List Char} {n : α}
    (h : f (c :: cs) = some n) : scanOpt f (c :: cs) = some n := by
  rw [scanOpt, h]

lemma digit_not_ws {c : Char} (h : isDigitCh c = true) : isJsWs c = false := by
  simp only [isDigitCh, Bool.and_eq_true, decide_eq_true_eq] at h
  simp only [isJsWs, jsWsCodes]
  simp only [List.mem_cons, List.not_mem_nil, or_false, decide_eq_false_iff_not]
  omega

lemma digit_beq_false {c x : Char} (h : isDigitCh c = true)
    (hx : x.toNat < 48 ∨ 57 < x.toNat) : (c == x) = false := by
  rw [beq_eq_false_iff_ne]
  intro heq
  subst heq
  simp only [isDigitCh, Bool.and_eq_true, decide_eq_true_eq] at h
  omega

lemma dropWhile_ws_digits {d : List Char} (h : ∀ c ∈ d, isDigitCh c = true) :
    d.dropWhile isJsWs = d := by
  apply dropWhile_eq_self_of_head
  intro x hx
  cases d with
  | nil => simp at hx
  | cons a l =>
    have hax : a = x := by simpa using hx
    subst hax
    exact digit_not_ws (h a (by simp))

lemma takeWhile_digits {d : List Char} (h : ∀ c ∈ d, isDigitCh c = true) :
    d.takeWhile isDigitCh = d := by
  induction d with
  | nil => rfl
  | cons a l ih =>
    rw [List.takeWhile_cons, if_pos (h a (by simp))]
    rw [ih (fun c hc => h c (List.mem_cons_of_mem _ hc))]

lemma digitsCapture_digits {d : List Char} (hne : d ≠ [])
    (h : ∀ c ∈ d, isDigitCh c = true) :
    digitsCapture d = some (natOfDigits d) := by
  unfold digitsCapture
  rw [takeWhile_digits h]
  cases d with
  | nil => exact absurd rfl hne
  | cons a l => rfl

lemma scanOpt_atLeast_digits {d : List Char} (h : ∀ c ∈ d, isDigitCh c = true) :
    scanOpt atLeastAt d = none := by
  induction d with
  | nil => rfl
  | cons c cs ih =>
    have hne : (c == 'a') = false :=
      digit_beq_false (h c (by simp)) (by right; decide)
    have h0 : atLeastAt (c :: cs) = none := by
      unfold atLeastAt
      rw [show ("at".toList) = ['a', 't'] from rfl, stripLit, if_neg (by simp [hne])]
    rw [scanOpt_cons_none h0]
    exact ih (fun x hx => h x (List.mem_cons_of_mem _ hx))

lemma scanOpt_gte_digits {d : List Char} (h : ∀ c ∈ d, isDigitCh c = true) :
    scanOpt gteAt d = none := by
  induction d with
  | nil => rfl
  | cons c cs ih =>
    have hne : (c == '>') = false :=
      digit_beq_false (h c (by simp)) (by right; decide)
    have h0 : gteAt (c :: cs) = none := by
      unfold gteAt
      rw [show (">=".toList) = ['>', '='] from rfl, stripLit, if_neg (by simp [hne])]
    rw [scanOpt_cons_none h0]
    exact ih (fun x hx => h x (List.mem_cons_of_mem _ hx))

lemma scanOpt_moreThan_digits {d : List Char} (h : ∀ c ∈ d, isDigitCh c = true) :
    scanOpt moreThanAt d = none := by
  induction d with
  | nil => rfl
  | cons c cs ih =>
    have hne : (c == 'm') = false :=
      digit_beq_false (h c (by simp)) (by right; decide)
    have h0 : moreThanAt (c :: cs) = none := by
      unfold moreThanAt
      rw [show ("more".toList) = ['m', 'o', 'r', 'e'] from rfl, stripLit, if_neg (by simp [hne])]
    rw [scanOpt_cons_none h0]
    exact ih (fun x hx => h x (List.mem_cons_of_mem _ hx))

lemma parseMinCount_atLeast {d : List Char} (hne : d ≠ [])
    (h : ∀ c ∈ d, isDigitCh c = true) :
    parseMinCount ("at least " ++ d.asString) = natOfDigits d := by
  have htl : ("at least " ++ d.asString).toList
      = 'a' :: 't' :: ' ' :: 'l' :: 'e' :: 'a' :: 's' :: 't' :: ' ' :: d := rfl
  have h0 : scanOpt atLeastAt ('a' :: 't' :: ' ' :: 'l' :: 'e' :: 'a' :: 's' :: 't' :: ' ' :: d)
      = some (natOfDigits d) := by
    apply scanOpt_cons_some
    rw [show atLeastAt ('a' :: 't' :: ' ' :: 'l' :: 'e' :: 'a' :: 's' :: 't' :: ' ' :: d)
        = digitsCapture (d.dropWhile isJsWs) from rfl]
    rw [dropWhile_ws_digits h, digitsCapture_digits hne h]
  unfold parseMinCount
  rw [htl, h0]

lemma parseMinCount_gte {d : List Char} (hne : d ≠ [])
    (h : ∀ c ∈ d, isDigitCh c = true) :
    parseMinCount (">= " ++ d.asString) = natOfDigits d := by
  have htl : (">= " ++ d.asString).toList = '>' :: '=' :: ' ' :: d := rfl
  have h1 : scanOpt atLeastAt ('>' :: '=' :: ' ' :: d) = scanOpt atLeastAt d := rfl
  have h2 : scanOpt gteAt ('>' :: '=' :: ' ' :: d) = some (natOfDigits d) := by
    apply scanOpt_cons_some
    rw [show gteAt ('>' :: '=' :: ' ' :: d) = digitsCapture (d.dropWhile isJsWs) from rfl]
    rw [dropWhile_ws_digits h, digitsCapture_digits hne h]
  unfold parseMinCount
  rw [htl, h1, scanOpt_atLeast_digits h, h2]

lemma parseMinCount_moreThan {d : List Char} (hne : d ≠ [])
    (h : ∀ c ∈ d, isDigitCh c = true) :
    parseMinCount ("more than " ++ d.asString) = natOfDigits d + 1 := by
  have htl : ("more than " ++ d.asString).toList
      = 'm' :: 'o' :: 'r' :: 'e' :: ' ' :: 't' :: 'h' :: 'a' :: 'n' :: ' ' :: d := rfl
  have h1 : scanOpt atLeastAt ('m' :: 'o' :: 'r' :: 'e' :: ' ' :: 't' :: 'h' :: 'a' :: 'n' :: ' ' :: d)
      = scanOpt atLeastAt d := rfl
  have h2 : scanOpt gteAt ('m' :: 'o' :: 'r' :: 'e' :: ' ' :: 't' :: 'h' :: 'a' :: 'n' :: ' ' :: d)
      = scanOpt gteAt d := rfl
  have h3 : scanOpt moreThanAt ('m' :: 'o' :: 'r' :: 'e' :: ' ' :: 't' :: 'h' :: 'a' :: 'n' :: ' ' :: d)
      = some (natOfDigits d) := by
    apply scanOpt_cons_some
    rw [show moreThanAt ('m' :: 'o' :: 'r' :: 'e' :: ' ' :: 't' :: 'h' :: 'a' :: 'n' :: ' ' :: d)
        = digitsCapture (d.dropWhile isJsWs) from rfl]
    rw [dropWhile_ws_digits h, digitsCapture_digits hne h]
  unfold parseMinCount
  rw [htl, h1, scanOpt_atLeast_digits h, h2, scanOpt_gte_digits h, h3]

/-- C8: the mock segment-from-prompt provider applies its three patterns in
strict priority order — the property-path (pricing) pattern wins over the
count pattern, which wins over the plain type-in-days pattern — and its
count parser maps `at least N` and `>= N` to `minCount = N` and
`more than N` to `minCount = N + 1` (for any digit string `N`). -/
theorem c8_mock_priority_and_count_parsing :
    (∀ prompt : String,
      (pricingTrigger (jsToLower prompt) = true →
        ∃ p, smartGenerateMock prompt =
          .eventPropertyEquals "page_view" "path" p (parseDays (jsToLower prompt))) ∧
      (pricingTrigger (jsToLower prompt) = false → 0 < parseMinCount (jsToLower prompt) →
        smartGenerateMock prompt =
          .eventCountGteInLastDays (parseEventType (jsToLower prompt))
            (parseDays (jsToLower prompt)) (parseMinCount (jsToLower prompt))) ∧
      (pricingTrigger (jsToLower prompt) = false → parseMinCount (jsToLower prompt) = 0 →
        smartGenerateMock prompt =
          .eventTypeInLastDays (parseEventType (jsToLower prompt))
            (parseDays (jsToLower prompt)))) ∧
    (∀ d : List Char, d ≠ [] → (∀ c ∈ d, isDigitCh c = true) →
      parseMinCount ("at least " ++ d.asString) = natOfDigits d ∧
      parseMinCount (">= " ++ d.asString) = natOfDigits d ∧
      parseMinCount ("more than " ++ d.asString) = natOfDigits d + 1) := by
  constructor
  · intro prompt
    refine ⟨?_, ?_, ?_⟩
    · intro hp
      simp only [smartGenerateMock]
      rw [if_pos hp]
      exact ⟨_, rfl⟩
    · intro hp hc
      simp only [smartGenerateMock]
      rw [if_neg (by simp [hp]), if_pos hc]
    · intro hp hc
      simp only [smartGenerateMock]
      rw [if_neg (by simp [hp]), if_neg (by simp [hc])]
  · intro d hne h
    exact ⟨parseMinCount_atLeast hne h, parseMinCount_gte hne h,
      parseMinCount_moreThan hne h⟩

/-- Witness for `c8_mock_priority_and_count_parsing` at concrete prompts
exercising every hypothesis: a prompt matching the pricing pattern (while
also containing a count phrase), a count-only prompt, a plain prompt, and
the digit string `"3"`. -/
theorem c8_mock_priority_and_count_parsing_witness :
    (pricingTrigger (jsToLower "visited /pricing at least 3 times") = true ∧
     ∃ p, smartGenerateMock "visited /pricing at least 3 times" =
       .eventPropertyEquals "page_view" "path" p
         (parseDays (jsToLower "visited /pricing at least 3 times"))) ∧
    (pricingTrigger (jsToLower "purchased at least 2 times") = false ∧
     0 < parseMinCount (jsToLower "purchased at least 2 times") ∧
     smartGenerateMock "purchased at least 2 times" =
       .eventCountGteInLastDays (parseEventType (jsToLower "purchased at least 2 times"))
         (parseDays (jsToLower "purchased at least 2 times"))
         (parseMinCount (jsToLower "purchased at least 2 times"))) ∧
    (pricingTrigger (jsToLower "logged in last week") = false ∧
     parseMinCount (jsToLower "logged in last week") = 0 ∧
     smartGenerateMock "logged in last week" =
       .eventTypeInLastDays (parseEventType (jsToLower "logged in last week"))
         (parseDays (jsToLower "logged in last week"))) ∧
    (parseMinCount ("at least " ++ (['3'] : List Char).asString) = natOfDigits ['3'] ∧
     parseMinCount (">= " ++ (['3'] : List Char).asString) = natOfDigits ['3'] ∧
     parseMinCount ("more than " ++ (['3'] : List Char).asString) = natOfDigits ['3'] + 1) := by
  refine ⟨⟨by decide, ?_⟩, ⟨by decide, by decide, ?_⟩, ⟨by decide, by decide, ?_⟩, ?_⟩
  · exact (c8_mock_priority_and_count_parsing.1 _).1 (by decide)
  · exact (c8_mock_priority_and_count_parsing.1 _).2.1 (by decide) (by decide)
  · exact (c8_mock_priority_and_count_parsing.1 _).2.2 (by decide) (by decide)
  · exact c8_mock_priority_and_count_parsing.2 ['3'] (by decide) (by decide)

-- ── Data model (prisma/schema.prisma, as used by the routes) ──

structure Customer where
  id : Nat
  email : String
deriving DecidableEq, Repr

structure Event where
  id : Nat
  customerId : Nat
  type : String
  properties : Json
  occurredAt : Int
  idempotencyKey : Option String

structure Campaign where
  id : Nat
  segmentSnapshot : Json
  status : String

structure EmailDraft where
  id : Nat
  campaignId : Nat
  customerId : Nat
  subject : String
  body : String
  recommendedSku : Option String
  status : String
deriving DecidableEq, Repr

structure SendRec where
  campaignId : Nat
  customerId : Nat
  status : String
  sentAt : Option Int
  errorMsg : Option String
deriving DecidableEq, Repr

/-- The database: one list per table, in insertion order, plus an id
counter standing in for cuid generation. -/
structure Store where
  customers : List Customer
  events : List Event
  campaigns : List Campaign
  drafts : List EmailDraft
  sends : List SendRec
  nextId : Nat

def DAY_MS : Int := 86400000

-- ── Segment evaluation (src/lib/segmentPreview.ts) ──

structure PreviewResult where
  count : Nat
  customers : List (Nat × String)
deriving DecidableEq, Repr

def PREVIEW_LIMIT : Nat := 50

/-- `occurredAt: { gte: cutoff }` where `cutoff` is `days` days before
`now` (the source computes the cutoff with calendar `setDate`; the model
uses day-granularity milliseconds). -/
def eventInWindow (now : Int) (days : Nat) (e : Event) : Bool :=
  now - (days : Int) * DAY_MS ≤ e.occurredAt

/-- The Prisma JSON filter `properties: { path: [path], equals: value }`
with a string `value`: the JSON property at key `path` equals the JSON
string `value`. -/
def propEq (props : Json) (path value : String) : Bool :=
  match props.get? path with
  | some (.str s) => s == value
  | _ => false

/-- The per-variant queries of `evaluateSegment`: distinct customer ids of
the matching events (`distinct: ["customerId"]` / `groupBy` + `having`). -/
def matchingCustomerIds (now : Int) (events : List Event) :
    SegmentDefinition → List Nat
  | .eventTypeInLastDays et days =>
    ((events.filter (fun e => e.type == et && eventInWindow now days e)).map
      (·.customerId)).dedup
  | .eventPropertyEquals et path value days =>
    ((events.filter (fun e => e.type == et && eventInWindow now days e &&
        propEq e.properties path value)).map (·.customerId)).dedup
  | .eventCountGteInLastDays et days minCount =>
    (((events.filter (fun e => e.type == et && eventInWindow now days e)).map
      (·.customerId)).dedup).filter
      (fun cid => minCount ≤ (events.filter (fun e => e.customerId == cid &&
        e.type == et && eventInWindow now days e)).length)

/-- Lexicographic code-point order on character lists, modelling the
database's `orderBy: { email: "asc" }` comparison on strings. -/
def lexLe : List Char → List Char → Bool
  | [], _ => true
  | _ :: _, [] => false
  | a :: as, b :: bs =>
    if a.toNat < b.toNat then true
    else if b.toNat < a.toNat then false
    else lexLe as bs

lemma lexLe_total : ∀ a b : List Char, lexLe a b = true ∨ lexLe b a = true
  | [], _ => Or.inl (by simp [lexLe])
  | _ :: _, [] => Or.inr (by simp [lexLe])
  | a :: as, b :: bs => by
    by_cases hab : a.toNat < b.toNat
    · left; simp [lexLe, hab]
    · by_cases hba : b.toNat < a.toNat
      · right; simp [lexLe, hba]
      · rcases lexLe_total as bs with h | h
        · left; simp [lexLe, hab, hba, h]
        · right; simp [lexLe, hab, hba, h]

lemma lexLe_trans : ∀ (a b c : List Char), lexLe a b = true →
    lexLe b c = true → lexLe a c = true
  | [], _, _, _, _ => by simp [lexLe]
  | _ :: _, [], _, hab, _ => by simp [lexLe] at hab
  | _ :: _, _ :: _, [], _, hbc => by simp [lexLe] at hbc
  | a :: as, b :: bs, c :: cs, hab, hbc => by
    simp only [lexLe] at hab hbc ⊢
    by_cases h1 : a.toNat < b.toNat
    · by_cases h2 : b.toNat < c.toNat
      · have hac : a.toNat < c.toNat := h1.trans h2
        simp [hac]
      · by_cases h3 : c.toNat < b.toNat
        · simp [h2, h3] at hbc
        · have hac : a.toNat < c.toNat := by omega
          simp [hac]
    · by_cases h1' : b.toNat < a.toNat
      · simp [h1, h1'] at hab
      · simp only [if_neg h1, if_neg h1'] at hab
        by_cases h2 : b.toNat < c.toNat
        · have hac : a.toNat < c.toNat := by omega
          simp [hac]
        · by_cases h3 : c.toNat < b.toNat
          · simp [h2, h3] at hbc
          · simp only [if_neg h2, if_neg h3] at hbc
            have h4 : ¬ a.toNat < c.toNat := by omega
            have h5 : ¬ c.toNat < a.toNat := by omega
            simp only [if_neg h4, if_neg h5]
            exact lexLe_trans as bs cs hab hbc

/-- `fetchCustomers` (src/lib/segmentPreview.ts): uncapped count, customer
list capped at `PREVIEW_LIMIT` and ordered by email ascending. -/
def fetchCustomers (customers : List Customer) (customerIds : List Nat) :
    PreviewResult :=
  if customerIds.isEmpty then ⟨0, []⟩
  else
    let sorted := (customers.filter (fun c => customerIds.contains c.id)).insertionSort
      (fun a b => lexLe a.email.data b.email.data = true)
    ⟨customerIds.length, (sorted.take PREVIEW_LIMIT).map (fun c => (c.id, c.email))⟩

/-- `evaluateSegment` (src/lib/segmentPreview.ts), over the `events` and
`customers` tables. -/
def evaluateSegment (now : Int) (events : List Event) (customers : List Customer)
    (defn : SegmentDefinition) : PreviewResult :=
  fetchCustomers customers (matchingCustomerIds now events defn)

-- ── Spec-side formulation of segment matching (spec §4.2) ──

/-- Spec §4.2, per variant: whether the customer with id `cid` matches the
definition (has a qualifying event / enough qualifying events). -/
def customerMatches (now : Int) (events : List Event) (defn : SegmentDefinition)
    (cid : Nat) : Bool :=
  match defn with
  | .eventTypeInLastDays et days =>
    events.any (fun e => e.customerId == cid && e.type == et &&
      eventInWindow now days e)
  | .eventPropertyEquals et path value days =>
    events.any (fun e => e.customerId == cid && e.type == et &&
      eventInWindow now days e && propEq e.properties path value)
  | .eventCountGteInLastDays et days minCount =>
    minCount ≤ (events.filter (fun e => e.customerId == cid && e.type == et &&
      eventInWindow now days e)).length

/-- Spec side: the number of distinct matching customer ids. -/
def specMatchCount (now : Int) (events : List Event)
    (defn : SegmentDefinition) : Nat :=
  (((events.map (·.customerId)).dedup).filter
    (customerMatches now events defn)).length

/-- The well-formedness the validator guarantees, as far as evaluation is
concerned: a positive `minCount` on the count variant. -/
def SegmentDefinition.wf : SegmentDefinition → Prop
  | .eventCountGteInLastDays _ _ m => 1 ≤ m
  | _ => True

lemma validate_wf {j : Json} {defn : SegmentDefinition}
    (h : validateSegmentDefinition j = .ok defn) : defn.wf := by
  obtain ⟨d, rfl, hcase⟩ := validateSegmentDefinition_ok h
  rcases hcase with h1 | h2 | h3
  · obtain ⟨et, q, _, _, rfl⟩ := validateETILD_ok h1
    trivial
  · obtain ⟨et, p, v, q, _, _, _, _, rfl⟩ := validateEPE_ok h2
    trivial
  · obtain ⟨et, q, m, _, _, _, hm, rfl⟩ := validateECG_ok h3
    simp only [isPositiveInt, Bool.and_eq_true, beq_iff_eq, decide_eq_true_eq] at hm
    show 1 ≤ m.num.toNat
    omega

instance : IsTotal Customer
    (fun a b : Customer => lexLe a.email.data b.email.data = true) :=
  ⟨fun a b => lexLe_total a.email.data b.email.data⟩

instance : IsTrans Customer
    (fun a b : Customer => lexLe a.email.data b.email.data = true) :=
  ⟨fun a b c h1 h2 => lexLe_trans a.email.data b.email.data c.email.data h1 h2⟩

/-- Membership in the code's distinct-id list coincides with the spec-side
matching predicate (for spec-well-formed definitions). -/
lemma mem_matchingCustomerIds {now : Int} {events : List Event}
    {defn : SegmentDefinition} (hwf : defn.wf) {cid : Nat} :
    cid ∈ matchingCustomerIds now events defn ↔
      (cid ∈ (events.map (·.customerId)).dedup ∧
        customerMatches now events defn cid = true) := by
  cases defn with
  | eventTypeInLastDays et days =>
    simp only [matchingCustomerIds, customerMatches, List.mem_dedup,
      List.mem_map, List.mem_filter, List.any_eq_true, Bool.and_eq_true,
      beq_iff_eq]
    aesop
  | eventPropertyEquals et path value days =>
    simp only [matchingCustomerIds, customerMatches, List.mem_dedup,
      List.mem_map, List.mem_filter, List.any_eq_true, Bool.and_eq_true,
      beq_iff_eq]
    aesop
  | eventCountGteInLastDays et days minCount =>
    have hm : 1 ≤ minCount := hwf
    constructor
    · intro hmem
      obtain ⟨hmem1, hq⟩ := List.mem_filter.mp hmem
      obtain ⟨e, hel1, hcid⟩ := List.mem_map.mp (List.mem_dedup.mp hmem1)
      have he : e ∈ events := (List.mem_filter.mp hel1).1
      refine ⟨List.mem_dedup.mpr (List.mem_map.mpr ⟨e, he, hcid⟩), ?_⟩
      simpa [customerMatches] using hq
    · rintro ⟨hmem1, hq⟩
      have hcount : minCount ≤ (events.filter (fun e => e.customerId == cid &&
          e.type == et && eventInWindow now days e)).length := by
        simpa [customerMatches] using hq
      have hne : events.filter (fun e => e.customerId == cid && e.type == et &&
          eventInWindow now days e) ≠ [] := by
        intro hnil
        rw [hnil] at hcount
        simp only [List.length_nil] at hcount
        omega
      obtain ⟨e2, he2⟩ := List.exists_mem_of_ne_nil _ hne
      have he2m := List.mem_filter.mp he2
      have hprops := he2m.2
      simp only [Bool.and_eq_true, beq_iff_eq] at hprops
      apply List.mem_filter.mpr
      constructor
      · apply List.mem_dedup.mpr
        apply List.mem_map.mpr
        refine ⟨e2, List.mem_filter.mpr ⟨he2m.1, ?_⟩, hprops.1.1⟩
        simp only [Bool.and_eq_true, beq_iff_eq]
        exact ⟨hprops.1.2, hprops.2⟩
      · simpa using hcount

lemma matchingCustomerIds_nodup (now : Int) (events : List Event)
    (defn : SegmentDefinition) : (matchingCustomerIds now events defn).Nodup := by
  cases defn with
  | eventTypeInLastDays et days => exact List.nodup_dedup _
  | eventPropertyEquals et path value days => exact List.nodup_dedup _
  | eventCountGteInLastDays et days minCount =>
    exact (List.nodup_dedup _).filter _

/-- The uncapped count returned by the code equals the spec-side number of
distinct matching customer ids. -/
lemma matchingCustomerIds_length (now : Int) (events : List Event)
    (defn : SegmentDefinition) (hwf : defn.wf) :
    (matchingCustomerIds now events defn).length
      = specMatchCount now events defn := by
  have hn1 : (matchingCustomerIds now events defn).Nodup :=
    matchingCustomerIds_nodup now events defn
  have hn2 : (((events.map (·.customerId)).dedup).filter
      (customerMatches now events defn)).Nodup :=
    (List.nodup_dedup _).filter _
  unfold specMatchCount
  rw [← List.toFinset_card_of_nodup hn1, ← List.toFinset_card_of_nodup hn2]
  congr 1
  ext cid
  simp only [List.mem_toFinset, List.mem_filter]
  exact mem_matchingCustomerIds hwf

/-- C5: for every spec-well-formed (validated) definition, the evaluation
result's `count` is the exact number of distinct matching customer ids
(uncapped), while the returned customer list has at most 50 entries and is
ordered by email ascending; when more than 50 customers match, the count
strictly exceeds the list length. -/
theorem c5_preview_count_uncapped_list_capped (now : Int) (events : List Event)
    (customers : List Customer) (defn : SegmentDefinition) (hwf : defn.wf) :
    (evaluateSegment now events customers defn).count
      = specMatchCount now events defn ∧
    (evaluateSegment now events customers defn).customers.length ≤ 50 ∧
    List.Sorted (fun a b : Nat × String => lexLe a.2.data b.2.data = true)
      (evaluateSegment now events customers defn).customers ∧
    (50 < (evaluateSegment now events customers defn).count →
      (evaluateSegment now events customers defn).customers.length
        < (evaluateSegment now events customers defn).count) := by
  have hcount : (evaluateSegment now events customers defn).count
      = specMatchCount now events defn := by
    unfold evaluateSegment fetchCustomers
    by_cases hemp : (matchingCustomerIds now events defn).isEmpty
    · rw [if_pos hemp]
      have hnil : matchingCustomerIds now events defn = [] :=
        List.isEmpty_iff.mp hemp
      rw [← matchingCustomerIds_length now events defn hwf, hnil]
      rfl
    · rw [if_neg hemp]
      exact matchingCustomerIds_length now events defn hwf
  have hlen : (evaluateSegment now events customers defn).customers.length ≤ 50 := by
    unfold evaluateSegment fetchCustomers
    by_cases hemp : (matchingCustomerIds now events defn).isEmpty
    · rw [if_pos hemp]; simp
    · rw [if_neg hemp]
      simp only [List.length_map, List.length_take]
      exact min_le_left _ _
  refine ⟨hcount, hlen, ?_, fun h50 => lt_of_le_of_lt hlen h50⟩
  unfold evaluateSegment fetchCustomers
  by_cases hemp : (matchingCustomerIds now events defn).isEmpty
  · rw [if_pos hemp]; simp [List.Sorted]
  · rw [if_neg hemp]
    simp only
    have hsorted : List.Sorted (fun a b : Customer => lexLe a.email.data b.email.data = true)
        ((customers.filter (fun c => (matchingCustomerIds now events defn).contains c.id)).insertionSort
          (fun a b => lexLe a.email.data b.email.data = true)) :=
      List.sorted_insertionSort _ _
    have htake : List.Sorted (fun a b : Customer => lexLe a.email.data b.email.data = true)
        (((customers.filter (fun c => (matchingCustomerIds now events defn).contains c.id)).insertionSort
          (fun a b => lexLe a.email.data b.email.data = true)).take PREVIEW_LIMIT) :=
      hsorted.sublist (List.take_sublist _ _)
    exact htake.map _ (fun a b hab => hab)

/-- Witness for `c5_preview_count_uncapped_list_capped` at a concrete
store: two customers, one matching the count definition twice, the other
only once. -/
theorem c5_preview_count_uncapped_list_capped_witness :
    (SegmentDefinition.eventCountGteInLastDays "page_view" 30 2).wf ∧
    ((evaluateSegment 0
        [⟨10, 1, "page_view", .obj [], 0, none⟩,
         ⟨11, 1, "page_view", .obj [], 0, none⟩,
         ⟨12, 2, "page_view", .obj [], 0, none⟩]
        [⟨1, "a@x.example"⟩, ⟨2, "b@x.example"⟩]
        (.eventCountGteInLastDays "page_view" 30 2)).count
      = specMatchCount 0
        [⟨10, 1, "page_view", .obj [], 0, none⟩,
         ⟨11, 1, "page_view", .obj [], 0, none⟩,
         ⟨12, 2, "page_view", .obj [], 0, none⟩]
        (.eventCountGteInLastDays "page_view" 30 2) ∧
     (evaluateSegment 0
        [⟨10, 1, "page_view", .obj [], 0, none⟩,
         ⟨11, 1, "page_view", .obj [], 0, none⟩,
         ⟨12, 2, "page_view", .obj [], 0, none⟩]
        [⟨1, "a@x.example"⟩, ⟨2, "b@x.example"⟩]
        (.eventCountGteInLastDays "page_view" 30 2)).customers.length ≤ 50 ∧
     List.Sorted (fun a b : Nat × String => lexLe a.2.data b.2.data = true)
       (evaluateSegment 0
        [⟨10, 1, "page_view", .obj [], 0, none⟩,
         ⟨11, 1, "page_view", .obj [], 0, none⟩,
         ⟨12, 2, "page_view", .obj [], 0, none⟩]
        [⟨1, "a@x.example"⟩, ⟨2, "b@x.example"⟩]
        (.eventCountGteInLastDays "page_view" 30 2)).customers ∧
     (50 < (evaluateSegment 0
        [⟨10, 1, "page_view", .obj [], 0, none⟩,
         ⟨11, 1, "page_view", .obj [], 0, none⟩,
         ⟨12, 2, "page_view", .obj [], 0, none⟩]
        [⟨1, "a@x.example"⟩, ⟨2, "b@x.example"⟩]
        (.eventCountGteInLastDays "page_view" 30 2)).count →
      (evaluateSegment 0
        [⟨10, 1, "page_view", .obj [], 0, none⟩,
         ⟨11, 1, "page_view", .obj [], 0, none⟩,
         ⟨12, 2, "page_view", .obj [], 0, none⟩]
        [⟨1, "a@x.example"⟩, ⟨2, "b@x.example"⟩]
        (.eventCountGteInLastDays "page_view" 30 2)).customers.length
        < (evaluateSegment 0
        [⟨10, 1, "page_view", .obj [], 0, none⟩,
         ⟨11, 1, "page_view", .obj [], 0, none⟩,
         ⟨12, 2, "page_view", .obj [], 0, none⟩]
        [⟨1, "a@x.example"⟩, ⟨2, "b@x.example"⟩]
        (.eventCountGteInLastDays "page_view" 30 2)).count)) :=
  ⟨by show (1:Nat) ≤ 2; omega,
   c5_preview_count_uncapped_list_capped 0 _ _ _ (by show (1:Nat) ≤ 2; omega)⟩

-- ── Event ingestion (the events POST route) ──

/-- `normalizeEmail` (src/lib/utils.ts): `email.trim().toLowerCase()`. -/
def normalizeEmail (email : String) : String := jsToLower (jsTrim email)

/-- `isValidEmail` (src/lib/utils.ts): the regex
`^[^\s@]+@[^\s@]+\.[^\s@]+$`, i.e. no whitespace anywhere, exactly one
`@` with a nonempty local part, and a `.` in the domain with nonempty
parts on both sides. -/
def isValidEmail (s : String) : Bool :=
  let cs := s.toList
  let a := cs.takeWhile (fun c => !(c == '@'))
  let r := cs.dropWhile (fun c => !(c == '@'))
  cs.all (fun c => !(isJsWs c)) &&
  (match r with
   | '@' :: b =>
     !a.isEmpty && b.all (fun c => !(c == '@')) &&
       ((b.drop 1).dropLast).any (fun c => c == '.')
   | _ => false)

/-- The parsed body of an event-ingestion request.  `email` is the
resolved `body.email ?? body.customer?.email`; `occurredAt` models an
already-parsed date (`none` = field absent, defaulting to now; string
date parsing is outside the model); `idemKey` is the `Idempotency-Key`
header after the `|| null` (absent/empty header becomes `none`). -/
structure EventRequest where
  email : Option String
  type : Option String
  properties : Option Json
  occurredAt : Option Int
  idemKey : Option String

/-- The validated data the route goes on to use. -/
structure IngestPayload where
  email : String
  type : String
  properties : Json
  occurredAt : Option Int

/-- The validation steps of the events POST route, in source order. -/
def checkIngest (r : EventRequest) : Except String IngestPayload :=
  match r.email with
  | none => .error "Email is required"
  | some email =>
    if email == "" then .error "Email is required"
    else
      match r.type with
      | none => .error "Event type is required"
      | some ty =>
        if ty == "" || jsTrim ty == "" then .error "Event type is required"
        else if !(isValidEmail (normalizeEmail email)) then
          .error "Invalid email format"
        else
          match r.properties with
          | none => .ok ⟨normalizeEmail email, ty, .obj [], r.occurredAt⟩
          | some (.obj fs) => .ok ⟨normalizeEmail email, ty, .obj fs, r.occurredAt⟩
          | some _ => .error "Properties must be a JSON object"

/-- `prisma.customer.upsert({where: {email}, update: {}, create: {email}})`. -/
def upsertCustomer (s : Store) (em : String) : Store × Customer :=
  match s.customers.find? (fun c => c.email == em) with
  | some c => (s, c)
  | none =>
    ({ s with customers := s.customers ++ [⟨s.nextId, em⟩], nextId := s.nextId + 1 },
     ⟨s.nextId, em⟩)

inductive IngestResult where
  | badRequest (msg : String)
  | ok (created : Bool) (eventId : Nat) (customerId : Nat)
deriving DecidableEq, Repr

/-- The post-validation body of the events POST route: upsert the
customer, return the prior event when the idempotency key already exists
for this customer, otherwise create a new event. -/
def ingestCore (now : Int) (s : Store) (idemKey : Option String)
    (p : IngestPayload) : Store × IngestResult :=
  let s1 := (upsertCustomer s p.email).1
  let cust := (upsertCustomer s p.email).2
  let existing : Option Event :=
    match idemKey with
    | some k => s1.events.find?
        (fun e => e.customerId == cust.id && e.idempotencyKey == some k)
    | none => none
  match existing with
  | some ev => (s1, .ok false ev.id cust.id)
  | none =>
    ({ s1 with
        events := s1.events ++
          [⟨s1.nextId, cust.id, jsTrim p.type, p.properties,
            (match p.occurredAt with | some t => t | none => now), idemKey⟩],
        nextId := s1.nextId + 1 },
     .ok true s1.nextId cust.id)

/-- The events POST route: validate, then run the ingestion body. -/
def ingestEvent (now : Int) (s : Store) (r : EventRequest) : Store × IngestResult :=
  match checkIngest r with
  | .error m => (s, .badRequest m)
  | .ok p => ingestCore now s r.idemKey p

lemma ingestEvent_ok {now : Int} {s : Store} {r : EventRequest} {p : IngestPayload}
    (hok : checkIngest r = .ok p) :
    ingestEvent now s r = ingestCore now s r.idemKey p := by
  unfold ingestEvent
  rw [hok]

lemma upsertCustomer_found {s : Store} {em : String} {c : Customer}
    (hf : s.customers.find? (fun c2 => c2.email == em) = some c) :
    upsertCustomer s em = (s, c) := by
  unfold upsertCustomer
  rw [hf]

lemma upsertCustomer_notfound {s : Store} {em : String}
    (hf : s.customers.find? (fun c2 => c2.email == em) = none) :
    upsertCustomer s em =
      ({ s with customers := s.customers ++ [⟨s.nextId, em⟩], nextId := s.nextId + 1 },
       ⟨s.nextId, em⟩) := by
  unfold upsertCustomer
  rw [hf]

lemma upsertCustomer_events (s : Store) (em : String) :
    (upsertCustomer s em).1.events = s.events := by
  unfold upsertCustomer
  split <;> rfl

lemma upsertCustomer_email (s : Store) (em : String) :
    (upsertCustomer s em).2.email = em := by
  unfold upsertCustomer
  cases hf : s.customers.find? (fun c2 => c2.email == em) with
  | none => rfl
  | some c =>
    have := List.find?_some hf
    simpa using this

lemma ingestEvent_dup {now : Int} {s : Store} {r : EventRequest}
    {p : IngestPayload} {k : String} {ev : Event}
    (hok : checkIngest r = .ok p) (hk : r.idemKey = some k)
    (hf : (upsertCustomer s p.email).1.events.find?
      (fun e => e.customerId == (upsertCustomer s p.email).2.id &&
        e.idempotencyKey == some k) = some ev) :
    ingestEvent now s r
      = ((upsertCustomer s p.email).1, .ok false ev.id (upsertCustomer s p.email).2.id) := by
  rw [ingestEvent_ok hok, hk]
  simp only [ingestCore]
  rw [hf]

lemma ingestEvent_new_some_key {now : Int} {s : Store} {r : EventRequest}
    {p : IngestPayload} {k : String}
    (hok : checkIngest r = .ok p) (hk : r.idemKey = some k)
    (hf : (upsertCustomer s p.email).1.events.find?
      (fun e => e.customerId == (upsertCustomer s p.email).2.id &&
        e.idempotencyKey == some k) = none) :
    ingestEvent now s r
      = ({ (upsertCustomer s p.email).1 with
            events := (upsertCustomer s p.email).1.events ++
              [⟨(upsertCustomer s p.email).1.nextId, (upsertCustomer s p.email).2.id,
                jsTrim p.type, p.properties,
                (match p.occurredAt with | some t => t | none => now), some k⟩],
            nextId := (upsertCustomer s p.email).1.nextId + 1 },
         .ok true (upsertCustomer s p.email).1.nextId (upsertCustomer s p.email).2.id) := by
  rw [ingestEvent_ok hok, hk]
  simp only [ingestCore]
  rw [hf]

lemma ingestEvent_no_key {now : Int} {s : Store} {r : EventRequest}
    {p : IngestPayload}
    (hok : checkIngest r = .ok p) (hk : r.idemKey = none) :
    ingestEvent now s r
      = ({ (upsertCustomer s p.email).1 with
            events := (upsertCustomer s p.email).1.events ++
              [⟨(upsertCustomer s p.email).1.nextId, (upsertCustomer s p.email).2.id,
                jsTrim p.type, p.properties,
                (match p.occurredAt with | some t => t | none => now), none⟩],
            nextId := (upsertCustomer s p.email).1.nextId + 1 },
         .ok true (upsertCustomer s p.email).1.nextId (upsertCustomer s p.email).2.id) := by
  rw [ingestEvent_ok hok, hk]
  simp only [ingestCore]

lemma find?_append_none {p : α → Bool} {l₁ l₂ : List α}
    (h : l₁.find? p = none) : (l₁ ++ l₂).find? p = l₂.find? p := by
  induction l₁ with
  | nil => rfl
  | cons a l ih =>
    cases hp : p a with
    | true =>
      rw [List.find?_cons_of_pos _ hp] at h
      simp at h
    | false =>
      rw [List.find?_cons_of_neg _ (by simp [hp])] at h
      rw [List.cons_append, List.find?_cons_of_neg _ (by simp [hp])]
      exact ih h

/-- C9: when a validated ingestion request carries no Idempotency-Key, a
new event record is always created (the store grows by exactly one event)
and the response reports `created: true` — no deduplication applies, even
if an identical event is already stored. -/
theorem c9_no_key_always_creates (now : Int) (s : Store) (r : EventRequest)
    (p : IngestPayload) (hok : checkIngest r = .ok p) (hk : r.idemKey = none) :
    (ingestEvent now s r).1.events.length = s.events.length + 1 ∧
    ∃ eid cid, (ingestEvent now s r).2 = .ok true eid cid := by
  rw [ingestEvent_no_key hok hk]
  refine ⟨?_, _, _, rfl⟩
  simp [upsertCustomer_events]

/-- Witness for `c9_no_key_always_creates`: the store already holds an
event identical (same customer, type, properties, time) to the incoming
keyless request, and a second event is created anyway. -/
theorem c9_no_key_always_creates_witness :
    checkIngest ⟨some "ann@shop.example", some "purchase", none, some 5, none⟩
      = .ok ⟨"ann@shop.example", "purchase", .obj [], some 5⟩ ∧
    (⟨some "ann@shop.example", some "purchase", none, some 5, none⟩ : EventRequest).idemKey = none ∧
    ((ingestEvent 99
        ⟨[⟨1, "ann@shop.example"⟩], [⟨2, 1, "purchase", .obj [], 5, none⟩], [], [], [], 3⟩
        ⟨some "ann@shop.example", some "purchase", none, some 5, none⟩).1.events.length
      = (⟨[⟨1, "ann@shop.example"⟩], [⟨2, 1, "purchase", .obj [], 5, none⟩], [], [], [], 3⟩ : Store).events.length + 1 ∧
     ∃ eid cid, (ingestEvent 99
        ⟨[⟨1, "ann@shop.example"⟩], [⟨2, 1, "purchase", .obj [], 5, none⟩], [], [], [], 3⟩
        ⟨some "ann@shop.example", some "purchase", none, some 5, none⟩).2 = .ok true eid cid) := by
  refine ⟨rfl, rfl, c9_no_key_always_creates 99 _ _ _ rfl rfl⟩

/-- C6: two validated ingestion requests with the same Idempotency-Key
resolving to the same customer: if the first one created its event (no
event with that key existed for the customer), then the second request
leaves the store unchanged, returns `created: false` with the first
event's id and the shared customer id, and exactly one event with that
(customer, key) pair is stored afterwards. -/
theorem c6_idempotency_key_dedups (now₁ now₂ : Int) (s : Store)
    (r₁ r₂ : EventRequest) (p₁ p₂ : IngestPayload) (k : String)
    (hok₁ : checkIngest r₁ = .ok p₁) (hk₁ : r₁.idemKey = some k)
    (hok₂ : checkIngest r₂ = .ok p₂) (hk₂ : r₂.idemKey = some k)
    (hemail : p₂.email = p₁.email)
    (hnone : (upsertCustomer s p₁.email).1.events.find?
      (fun e => e.customerId == (upsertCustomer s p₁.email).2.id &&
        e.idempotencyKey == some k) = none) :
    (ingestEvent now₁ s r₁).2
      = .ok true (upsertCustomer s p₁.email).1.nextId (upsertCustomer s p₁.email).2.id ∧
    ingestEvent now₂ (ingestEvent now₁ s r₁).1 r₂
      = ((ingestEvent now₁ s r₁).1,
         .ok false (upsertCustomer s p₁.email).1.nextId (upsertCustomer s p₁.email).2.id) ∧
    ((ingestEvent now₂ (ingestEvent now₁ s r₁).1 r₂).1.events.filter
      (fun e => e.customerId == (upsertCustomer s p₁.email).2.id &&
        e.idempotencyKey == some k)).length = 1 := by
  have hrun1 := @ingestEvent_new_some_key now₁ s r₁ p₁ k hok₁ hk₁ hnone
  set cust := (upsertCustomer s p₁.email).2 with hcust
  set s1 := (upsertCustomer s p₁.email).1 with hs1
  set newEv : Event := ⟨s1.nextId, cust.id, jsTrim p₁.type, p₁.properties,
    (match p₁.occurredAt with | some t => t | none => now₁), some k⟩ with hnewEv
  -- the store after the first request
  set s2 : Store := { s1 with events := s1.events ++ [newEv], nextId := s1.nextId + 1 } with hs2
  have hrun1' : ingestEvent now₁ s r₁ = (s2, .ok true s1.nextId cust.id) := hrun1
  -- the second upsert finds the same customer
  have hcustupsert : upsertCustomer s2 p₂.email = (s2, cust) := by
    rw [hemail]
    have hfind2 : s2.customers.find? (fun c2 => c2.email == p₁.email) = some cust := by
      show s1.customers.find? (fun c2 => c2.email == p₁.email) = some cust
      rw [hs1, hcust]
      cases hf : s.customers.find? (fun c2 => c2.email == p₁.email) with
      | some c =>
        rw [upsertCustomer_found hf]
        exact hf
      | none =>
        rw [upsertCustomer_notfound hf]
        show (s.customers ++ [(⟨s.nextId, p₁.email⟩ : Customer)]).find?
            (fun c2 => c2.email == p₁.email) = some (⟨s.nextId, p₁.email⟩ : Customer)
        rw [find?_append_none hf]
        exact List.find?_cons_of_pos _ (by simp)
    exact upsertCustomer_found hfind2
  -- the second lookup finds the event created by the first request
  have hpred : (fun e : Event => e.customerId == cust.id && e.idempotencyKey == some k) newEv
      = true := by simp [hnewEv]
  have hfind : s2.events.find?
      (fun e => e.customerId == cust.id && e.idempotencyKey == some k) = some newEv := by
    show (s1.events ++ [newEv]).find?
      (fun e => e.customerId == cust.id && e.idempotencyKey == some k) = some newEv
    rw [find?_append_none hnone]
    exact List.find?_cons_of_pos _ (by exact hpred)
  have hrun2 : ingestEvent now₂ s2 r₂ = (s2, .ok false newEv.id cust.id) := by
    have hdup := @ingestEvent_dup now₂ s2 r₂ p₂ k newEv
      hok₂ hk₂ (by rw [hcustupsert]; exact hfind)
    rw [hcustupsert] at hdup
    exact hdup
  have hfilter1 : s1.events.filter
      (fun e => e.customerId == cust.id && e.idempotencyKey == some k) = [] := by
    rw [List.filter_eq_nil_iff]
    intro e he
    have := List.find?_eq_none.mp hnone e he
    simpa using this
  refine ⟨by rw [hrun1'], ?_, ?_⟩
  · rw [hrun1']
    exact hrun2
  · rw [hrun1']
    rw [show (ingestEvent now₂ s2 r₂).1 = s2 from by rw [hrun2]]
    show ((s1.events ++ [newEv]).filter
      (fun e => e.customerId == cust.id && e.idempotencyKey == some k)).length = 1
    rw [List.filter_append, hfilter1]
    simp [List.filter_cons, hpred]

/-- Concrete fixtures for the idempotency-key witness. -/
def c6Store : Store := ⟨[], [], [], [], [], 0⟩

def c6Req : EventRequest := ⟨some "a@b.co", some "purchase", none, some 1, some "K1"⟩

def c6Payload : IngestPayload := ⟨"a@b.co", "purchase", .obj [], some 1⟩

/-- Witness for `c6_idempotency_key_dedups`: the same keyed request sent
twice against an empty store. -/
theorem c6_idempotency_key_dedups_witness :
    checkIngest c6Req = .ok c6Payload ∧
    c6Req.idemKey = some "K1" ∧
    c6Payload.email = c6Payload.email ∧
    (upsertCustomer c6Store c6Payload.email).1.events.find?
      (fun e => e.customerId == (upsertCustomer c6Store c6Payload.email).2.id &&
        e.idempotencyKey == some "K1") = none ∧
    ((ingestEvent 10 c6Store c6Req).2
      = .ok true (upsertCustomer c6Store c6Payload.email).1.nextId
          (upsertCustomer c6Store c6Payload.email).2.id ∧
     ingestEvent 20 (ingestEvent 10 c6Store c6Req).1 c6Req
      = ((ingestEvent 10 c6Store c6Req).1,
         .ok false (upsertCustomer c6Store c6Payload.email).1.nextId
           (upsertCustomer c6Store c6Payload.email).2.id) ∧
     ((ingestEvent 20 (ingestEvent 10 c6Store c6Req).1 c6Req).1.events.filter
      (fun e => e.customerId == (upsertCustomer c6Store c6Payload.email).2.id &&
        e.idempotencyKey == some "K1")).length = 1) :=
  ⟨rfl, rfl, rfl, rfl,
   c6_idempotency_key_dedups 10 20 c6Store c6Req c6Req c6Payload c6Payload "K1"
     rfl rfl rfl rfl rfl rfl⟩

-- ── Draft status patch (src/app/api/campaigns/[id]/drafts/[draftId]/route.ts) ──

inductive PatchResult where
  | badRequest (msg : String)
  | notFound
  | conflict (msg : String)
  | okUpdated (draft : EmailDraft)
  | internalError
deriving DecidableEq, Repr

def ALLOWED_STATUSES : List String := ["approved", "rejected"]

/-- The destructured `status` field of the request body when it is a
string (`const { status } = body`, then the `typeof status === "string"`
check); `none` for a missing or non-string field. -/
def statusOf (body : Json) : Option String :=
  match body with
  | .obj fields =>
    match fields.lookup "status" with
    | some (.str st) => some st
    | _ => none
  | _ => none

/-- The draft update applied on the happy path:
`prisma.emailDraft.update({ where: { id: draftId }, data: { status } })`. -/
def updateDraftStatus (s : Store) (draftId : Nat) (st : String) : Store :=
  { s with drafts :=
      (s.drafts.map (fun d => if d.id == draftId then { d with status := st } else d)) }

/-- The branch of the PATCH route once the draft row has been loaded:
conflict unless the prior status is `generated`, else update. -/
def patchExisting (s : Store) (draftId : Nat) (st : String)
    (existing : EmailDraft) : Store × PatchResult :=
  if existing.status != "generated" then
    (s, .conflict ("Cannot transition draft from status \"" ++ existing.status ++ "\""))
  else
    (updateDraftStatus s draftId st, .okUpdated { existing with status := st })

/-- The branch of the PATCH route once the status string is known. -/
def patchCore (s : Store) (campaignId draftId : Nat) (st : String) :
    Store × PatchResult :=
  if !(ALLOWED_STATUSES.contains st) then
    (s, .badRequest "status must be one of: approved, rejected")
  else
    match s.drafts.find? (fun d => d.id == draftId && d.campaignId == campaignId) with
    | none => (s, .notFound)
    | some existing => patchExisting s draftId st existing

/-- The draft PATCH route.  `body` is the parsed JSON body (the source's
invalid-JSON 400 happens before this model).  A JSON `null` body parses
successfully, but `const \x7b status \x7d = body` then throws a TypeError,
which the route's outer catch turns into the 500 response — modelled as
`internalError`.  Every other JSON value destructures without throwing
(non-objects yield an `undefined` `status`). -/
def patchDraft (s : Store) (campaignId draftId : Nat) (body : Json) :
    Store × PatchResult :=
  if body.isNull then (s, .internalError)
  else
    match statusOf body with
    | none => (s, .badRequest "status must be one of: approved, rejected")
    | some st => patchCore s campaignId draftId st

lemma statusOf_not_null {body : Json} {st : String}
    (hst : statusOf body = some st) : body.isNull = false := by
  cases body with
  | null => simp [statusOf] at hst
  | bool b => rfl
  | num q => rfl
  | str t => rfl
  | arr l => rfl
  | obj fields => rfl

lemma patchDraft_null {s : Store} {campaignId draftId : Nat} :
    patchDraft s campaignId draftId .null = (s, .internalError) := by
  unfold patchDraft
  rw [if_pos (show Json.isNull .null = true from rfl)]

lemma patchDraft_none {s : Store} {campaignId draftId : Nat} {body : Json}
    (hnull : body.isNull = false) (hst : statusOf body = none) :
    patchDraft s campaignId draftId body
      = (s, .badRequest "status must be one of: approved, rejected") := by
  unfold patchDraft
  rw [if_neg (by rw [hnull]; decide), hst]

lemma patchDraft_some {s : Store} {campaignId draftId : Nat} {body : Json}
    {st : String} (hst : statusOf body = some st) :
    patchDraft s campaignId draftId body = patchCore s campaignId draftId st := by
  unfold patchDraft
  rw [if_neg (by rw [statusOf_not_null hst]; decide), hst]

lemma patchCore_notAllowed {s : Store} {campaignId draftId : Nat} {st : String}
    (hc : ALLOWED_STATUSES.contains st = false) :
    patchCore s campaignId draftId st
      = (s, .badRequest "status must be one of: approved, rejected") := by
  unfold patchCore
  rw [if_pos (by rw [hc]; rfl)]

lemma patchCore_found {s : Store} {campaignId draftId : Nat} {st : String}
    {ex : EmailDraft}
    (hallowed : ALLOWED_STATUSES.contains st = true)
    (hfind : s.drafts.find? (fun d => d.id == draftId && d.campaignId == campaignId)
      = some ex) :
    patchCore s campaignId draftId st = patchExisting s draftId st ex := by
  unfold patchCore
  rw [if_neg (by rw [hallowed]; decide), hfind]

lemma patchExisting_conflict {s : Store} {draftId : Nat} {st : String}
    {ex : EmailDraft} (hgen : ex.status ≠ "generated") :
    patchExisting s draftId st ex
      = (s, .conflict ("Cannot transition draft from status \"" ++ ex.status ++ "\"")) := by
  unfold patchExisting
  rw [if_pos (by simp [hgen])]

lemma patchExisting_ok {s : Store} {draftId : Nat} {st : String}
    {ex : EmailDraft} (hgen : ex.status = "generated") :
    patchExisting s draftId st ex
      = (updateDraftStatus s draftId st, .okUpdated { ex with status := st }) := by
  unfold patchExisting
  rw [if_neg (by simp [hgen])]

/-- After a successful patch, the same draft is found with the new status. -/
lemma patchDraft_find_after {s : Store} {campaignId draftId : Nat} {st : String}
    {ex : EmailDraft}
    (hfind : s.drafts.find? (fun d => d.id == draftId && d.campaignId == campaignId)
      = some ex) :
    (updateDraftStatus s draftId st).drafts.find?
      (fun d => d.id == draftId && d.campaignId == campaignId)
      = some { ex with status := st } := by
  show (s.drafts.map (fun d => if d.id == draftId then { d with status := st } else d)).find?
    (fun d => d.id == draftId && d.campaignId == campaignId) = some { ex with status := st }
  rw [List.find?_map]
  have hcomp : ((fun d : EmailDraft => d.id == draftId && d.campaignId == campaignId) ∘
      (fun d => if d.id == draftId then { d with status := st } else d))
      = (fun d : EmailDraft => d.id == draftId && d.campaignId == campaignId) := by
    funext d
    by_cases hd : (d.id == draftId) = true
    · simp [Function.comp, hd]
    · simp [Function.comp, hd]
  rw [hcomp, hfind]
  have hid : (ex.id == draftId) = true := by
    have := List.find?_some hfind
    simp only [Bool.and_eq_true] at this
    exact this.1
  simp [Option.map, hid]

/-- C7: the draft status patch accepts only `"approved"` and `"rejected"`
(for every non-null body — a null body makes the route's destructuring
throw, a 500, before any status validation — a `status` that is missing,
not a string, or any other string is rejected as a validation error with
the store unchanged); for every draft whose current status is not
`"generated"`, a patch carrying an allowed status fails with a conflict
and changes nothing; and a successful approval followed by a second
approval of the same draft yields a conflict on the second attempt. -/
theorem c7_patch_only_approved_rejected_and_terminal (s : Store)
    (campaignId draftId : Nat) :
    patchDraft s campaignId draftId .null = (s, .internalError) ∧
    (∀ body : Json, body.isNull = false →
      (∀ st : String, statusOf body = some st →
        st ≠ "approved" ∧ st ≠ "rejected") →
      patchDraft s campaignId draftId body
        = (s, .badRequest "status must be one of: approved, rejected")) ∧
    (∀ (body : Json) (st : String) (ex : EmailDraft),
      statusOf body = some st →
      (st = "approved" ∨ st = "rejected") →
      s.drafts.find? (fun d => d.id == draftId && d.campaignId == campaignId)
        = some ex →
      ex.status ≠ "generated" →
      patchDraft s campaignId draftId body
        = (s, .conflict ("Cannot transition draft from status \"" ++ ex.status ++ "\""))) ∧
    (∀ (body : Json) (ex : EmailDraft),
      statusOf body = some "approved" →
      s.drafts.find? (fun d => d.id == draftId && d.campaignId == campaignId)
        = some ex →
      ex.status = "generated" →
      ∃ s2 : Store,
        patchDraft s campaignId draftId body
          = (s2, .okUpdated { ex with status := "approved" }) ∧
        patchDraft s2 campaignId draftId body
          = (s2, .conflict "Cannot transition draft from status \"approved\"")) := by
  refine ⟨patchDraft_null, ?_, ?_, ?_⟩
  · intro body hnull hbad
    cases hst : statusOf body with
    | none => exact patchDraft_none hnull hst
    | some st =>
      rw [patchDraft_some hst]
      have hne := hbad st hst
      exact patchCore_notAllowed (by simp [ALLOWED_STATUSES, hne.1, hne.2])
  · intro body st ex hst hv hfind hgen
    rw [patchDraft_some hst,
      patchCore_found (by rcases hv with rfl | rfl <;> decide) hfind]
    exact patchExisting_conflict hgen
  · intro body ex hst hfind hgen
    refine ⟨updateDraftStatus s draftId "approved", ?_, ?_⟩
    · rw [patchDraft_some hst, patchCore_found (by decide) hfind]
      exact patchExisting_ok hgen
    · have hfind2 := @patchDraft_find_after _ _ _ "approved" _ hfind
      rw [patchDraft_some hst, patchCore_found (by decide) hfind2]
      have hconf := @patchExisting_conflict
        (updateDraftStatus s draftId "approved") draftId
        "approved" { ex with status := "approved" } (by simp)
      simpa using hconf

/-- Concrete store for the draft-patch witness: campaign 1 with one
`generated` draft (id 2) and one `rejected` draft (id 3). -/
def c7Store : Store :=
  ⟨[], [], [],
   [⟨2, 1, 5, "subj", "body", none, "generated"⟩,
    ⟨3, 1, 6, "subj", "body", none, "rejected"⟩],
   [], 10⟩

/-- Witness for `c7_patch_only_approved_rejected_and_terminal` at
concrete drafts: a null body is a 500, an unknown status value is a
validation error, patching the `rejected` draft conflicts, and approving
the `generated` draft twice conflicts on the second attempt. -/
theorem c7_patch_only_approved_rejected_and_terminal_witness :
    (patchDraft c7Store 1 2 .null = (c7Store, .internalError)) ∧
    (patchDraft c7Store 1 2 (.obj [("status", .str "weird")])
      = (c7Store, .badRequest "status must be one of: approved, rejected")) ∧
    (patchDraft c7Store 1 3 (.obj [("status", .str "approved")])
      = (c7Store, .conflict ("Cannot transition draft from status \"" ++
          (⟨3, 1, 6, "subj", "body", none, "rejected"⟩ : EmailDraft).status ++ "\""))) ∧
    (∃ s2 : Store,
      patchDraft c7Store 1 2 (.obj [("status", .str "approved")])
        = (s2, .okUpdated { (⟨2, 1, 5, "subj", "body", none, "generated"⟩ : EmailDraft)
            with status := "approved" }) ∧
      patchDraft s2 1 2 (.obj [("status", .str "approved")])
        = (s2, .conflict "Cannot transition draft from status \"approved\"")) := by
  refine ⟨?_, ?_, ?_, ?_⟩
  · exact (c7_patch_only_approved_rejected_and_terminal c7Store 1 2).1
  · exact (c7_patch_only_approved_rejected_and_terminal c7Store 1 2).2.1
      (.obj [("status", .str "weird")]) (by decide)
      (by intro st h; injection h with h'; subst h'; exact ⟨by decide, by decide⟩)
  · exact (c7_patch_only_approved_rejected_and_terminal c7Store 1 3).2.2.1
      (.obj [("status", .str "approved")]) "approved"
      (⟨3, 1, 6, "subj", "body", none, "rejected"⟩ : EmailDraft)
      rfl (Or.inl rfl) rfl (by decide)
  · exact (c7_patch_only_approved_rejected_and_terminal c7Store 1 2).2.2.2
      (.obj [("status", .str "approved")])
      (⟨2, 1, 5, "subj", "body", none, "generated"⟩ : EmailDraft)
      rfl rfl rfl

-- ── Campaign utilities (src/lib/campaignUtils.ts) ──

/-- `extractRecommendedSku`: the sku of the most recent event (list sorted
newest-first) with a non-empty string `properties.sku`, trimmed. -/
def extractRecommendedSku : List Event → Option String
  | [] => none
  | e :: rest =>
    match e.properties.get? "sku" with
    | some (.str sku) =>
      if jsTrim sku == "" then extractRecommendedSku rest
      else some (jsTrim sku)
    | _ => extractRecommendedSku rest

/-- `extractRecentEventType`: the type of the first (most recent) event. -/
def extractRecentEventType (events : List Event) : Option String :=
  events.head?.map (·.type)

-- ── Campaign draft generation (src/app/api/campaigns/[id]/generate-drafts/route.ts) ──

def THIRTY_DAYS_MS : Int := 30 * 24 * 60 * 60 * 1000

instance : IsTotal Event (fun a b : Event => b.occurredAt ≤ a.occurredAt) :=
  ⟨fun a b => le_total b.occurredAt a.occurredAt⟩

instance : IsTrans Event (fun a b : Event => b.occurredAt ≤ a.occurredAt) :=
  ⟨fun _ _ _ h1 h2 => le_trans h2 h1⟩

/-- `orderBy: { occurredAt: "desc" }`. -/
def sortEventsDesc (events : List Event) : List Event :=
  events.insertionSort (fun a b => b.occurredAt ≤ a.occurredAt)

/-- The batch event fetch: all events of the given customers in the last
30 days, newest first. -/
def recentEventsFor (now : Int) (events : List Event) (ids : List Nat) : List Event :=
  sortEventsDesc (events.filter (fun e => ids.contains e.customerId &&
    now - THIRTY_DAYS_MS ≤ e.occurredAt))

/-- The per-customer draft inputs of the loop body: the customer's recent
events (the grouping map lookup), the recommended SKU, the recent event
type, and the provider output.  Returns (subject, body, recommendedSku). -/
def draftFieldsFor (recentEvents : List Event) (c : Nat × String) :
    String × String × Option String :=
  let evs := recentEvents.filter (fun e => e.customerId == c.1)
  let recommendedSku := extractRecommendedSku evs
  let recentEventType := extractRecentEventType evs
  let out := mockSmartDraftGenerate ⟨c.2, recentEventType, recommendedSku⟩
  (out.subject, out.body, recommendedSku)

/-- Whether a draft row has the given (campaign, customer) key. -/
def draftKey (campaignId customerId : Nat) (d : EmailDraft) : Bool :=
  d.campaignId == campaignId && d.customerId == customerId

/-- `prisma.emailDraft.upsert` keyed by `campaignId_customerId`:
update subject/body/recommendedSku in place, or create with status
`generated` (the schema default). -/
def upsertDraft (s : Store) (campaignId customerId : Nat)
    (subject bodyText : String) (sku : Option String) : Store :=
  if s.drafts.any (draftKey campaignId customerId) then
    { s with drafts :=
        (s.drafts.map (fun d =>
          if draftKey campaignId customerId d then
            { d with subject := subject, body := bodyText, recommendedSku := sku }
          else d)) }
  else
    { s with
        drafts := s.drafts ++
          [⟨s.nextId, campaignId, customerId, subject, bodyText, sku, "generated"⟩],
        nextId := s.nextId + 1 }

/-- One iteration of the draft-generation loop. -/
def draftStep (recentEvents : List Event) (campaignId : Nat)
    (acc : Store) (c : Nat × String) : Store :=
  upsertDraft acc campaignId c.1 (draftFieldsFor recentEvents c).1
    (draftFieldsFor recentEvents c).2.1 (draftFieldsFor recentEvents c).2.2

/-- The body of the generate-drafts route once the snapshot validated. -/
def generateDraftsValidated (now : Int) (s : Store) (campaignId : Nat)
    (defn : SegmentDefinition) : Store × Except String Nat :=
  let preview := evaluateSegment now s.events s.customers defn
  if preview.customers.isEmpty then (s, .ok 0)
  else
    let customerIds := preview.customers.map (·.1)
    let recentEvents := recentEventsFor now s.events customerIds
    let s2 := preview.customers.foldl (draftStep recentEvents campaignId) s
    let s3 := { s2 with campaigns :=
        (s2.campaigns.map (fun cp =>
          if cp.id == campaignId then { cp with status := "drafted" } else cp)) }
    (s3, .ok preview.customers.length)

/-- The body of the generate-drafts route once the campaign is loaded. -/
def generateDraftsForCampaign (now : Int) (s : Store) (campaignId : Nat)
    (campaign : Campaign) : Store × Except String Nat :=
  match validateSegmentDefinition campaign.segmentSnapshot with
  | .error e => (s, .error ("Invalid segment snapshot: " ++ e))
  | .ok defn => generateDraftsValidated now s campaignId defn

/-- POST /api/campaigns/[id]/generate-drafts. -/
def generateDrafts (now : Int) (s : Store) (campaignId : Nat) :
    Store × Except String Nat :=
  match s.campaigns.find? (fun c => c.id == campaignId) with
  | none => (s, .error "Campaign not found")
  | some campaign => generateDraftsForCampaign now s campaignId campaign

/-- The customers the draft-generation loop iterates over (the evaluated
preview of the frozen snapshot; empty when the campaign is missing or the
snapshot invalid). -/
def processedCustomers (now : Int) (s : Store) (campaignId : Nat) :
    List (Nat × String) :=
  match s.campaigns.find? (fun c => c.id == campaignId) with
  | none => []
  | some campaign =>
    match validateSegmentDefinition campaign.segmentSnapshot with
    | .error _ => []
    | .ok defn => (evaluateSegment now s.events s.customers defn).customers

-- ── Campaign send (the send route) ──

/-- `prisma.send.upsert` on the success branch. -/
def upsertSendSent (now : Int) (s : Store) (campaignId customerId : Nat) : Store :=
  if s.sends.any (fun snd => snd.campaignId == campaignId && snd.customerId == customerId) then
    { s with sends :=
        (s.sends.map (fun snd =>
          if snd.campaignId == campaignId && snd.customerId == customerId then
            { snd with status := "sent", sentAt := some now, errorMsg := none }
          else snd)) }
  else
    { s with sends := s.sends ++ [⟨campaignId, customerId, "sent", some now, none⟩] }

/-- `prisma.send.upsert` on the (dead) failure branch. -/
def upsertSendFailed (s : Store) (campaignId customerId : Nat) : Store :=
  if s.sends.any (fun snd => snd.campaignId == campaignId && snd.customerId == customerId) then
    { s with sends :=
        (s.sends.map (fun snd =>
          if snd.campaignId == campaignId && snd.customerId == customerId then
            { snd with status := "failed", errorMsg := some "Simulated send failure" }
          else snd)) }
  else
    { s with sends := s.sends ++
        [⟨campaignId, customerId, "failed", none, some "Simulated send failure"⟩] }

/-- One iteration of the send loop (the `simulatedSuccess` flag is
hard-coded `true` in the source; the failure branch is dead code,
embedded as written). -/
def sendStep (now : Int) (campaignId : Nat) (acc : Store × Nat × Nat)
    (d : EmailDraft) : Store × Nat × Nat :=
  let simulatedSuccess := true
  if simulatedSuccess then
    (upsertSendSent now acc.1 campaignId d.customerId, acc.2.1 + 1, acc.2.2)
  else
    (upsertSendFailed acc.1 campaignId d.customerId, acc.2.1, acc.2.2 + 1)

/-- The send loop over the approved drafts, accumulating the counters. -/
def sendFold (now : Int) (campaignId : Nat) (s : Store)
    (ds : List EmailDraft) : Store × Nat × Nat :=
  ds.foldl (sendStep now campaignId) (s, 0, 0)

/-- The status update and response after the send loop. -/
def sendFinish (campaignId : Nat) (result : Store × Nat × Nat) :
    Store × Except String (Nat × Nat) :=
  let sentCount := result.2.1
  let failedCount := result.2.2
  let newStatus :=
    if failedCount == 0 then "sent"
    else if sentCount == 0 then "failed"
    else "sent"
  ({ result.1 with campaigns :=
      (result.1.campaigns.map (fun cp =>
        if cp.id == campaignId then { cp with status := newStatus } else cp)) },
   .ok (sentCount, failedCount))

/-- The body of the send route once the campaign is loaded. -/
def sendCampaignFound (now : Int) (s : Store) (campaignId : Nat) :
    Store × Except String (Nat × Nat) :=
  let approvedDrafts := s.drafts.filter
    (fun d => d.campaignId == campaignId && d.status == "approved")
  if approvedDrafts.isEmpty then (s, .error "No approved drafts to send")
  else sendFinish campaignId (sendFold now campaignId s approvedDrafts)

/-- POST /api/campaigns/[id]/send. -/
def sendCampaign (now : Int) (s : Store) (campaignId : Nat) :
    Store × Except String (Nat × Nat) :=
  match s.campaigns.find? (fun c => c.id == campaignId) with
  | none => (s, .error "Campaign not found")
  | some _ => sendCampaignFound now s campaignId

/-- The status of a campaign row, if present. -/
def campaignStatus (s : Store) (campaignId : Nat) : Option String :=
  (s.campaigns.find? (fun c => c.id == campaignId)).map (·.status)

-- ── Facts about the draft upsert and the generation loop ──

/-- The drafts stored under a given (campaign, customer) key. -/
def draftsFor (ds : List EmailDraft) (campaignId customerId : Nat) : List EmailDraft :=
  ds.filter (draftKey campaignId customerId)

lemma draftKey_eq {K cid : Nat} {d : EmailDraft} (h : draftKey K cid d = true) :
    d.campaignId = K ∧ d.customerId = cid := by
  simp only [draftKey, Bool.and_eq_true, beq_iff_eq] at h
  exact h

lemma upsertDraft_events (s : Store) (K cid : Nat) (subj b : String) (sku : Option String) :
    (upsertDraft s K cid subj b sku).events = s.events := by
  unfold upsertDraft; split <;> rfl

lemma upsertDraft_customers (s : Store) (K cid : Nat) (subj b : String) (sku : Option String) :
    (upsertDraft s K cid subj b sku).customers = s.customers := by
  unfold upsertDraft; split <;> rfl

lemma upsertDraft_campaigns (s : Store) (K cid : Nat) (subj b : String) (sku : Option String) :
    (upsertDraft s K cid subj b sku).campaigns = s.campaigns := by
  unfold upsertDraft; split <;> rfl

lemma upsertDraft_draftsFor_ne {s : Store} {K cid K' cid' : Nat}
    {subj b : String} {sku : Option String}
    (h : ¬(K' = K ∧ cid' = cid)) :
    draftsFor (upsertDraft s K cid subj b sku).drafts K' cid'
      = draftsFor s.drafts K' cid' := by
  have hg : ((draftKey K' cid') ∘ (fun d : EmailDraft =>
      if draftKey K cid d then
        { d with subject := subj, body := b, recommendedSku := sku }
      else d)) = draftKey K' cid' := by
    funext d
    by_cases hd : draftKey K cid d = true
    · simp only [Function.comp, hd, if_true]
      rfl
    · simp only [Function.comp, hd, if_false]
      rw [if_neg (by simp [hd])]
  unfold upsertDraft draftsFor
  split
  · show ((s.drafts.map _).filter (draftKey K' cid')) = _
    rw [List.filter_map, hg]
    trans (List.map id (List.filter (draftKey K' cid') s.drafts))
    · apply List.map_congr_left
      intro d hd
      have hp := (List.mem_filter.mp hd).2
      have hne : draftKey K cid d = false := by
        rcases draftKey_eq hp with ⟨h1, h2⟩
        simp only [draftKey, h1, h2]
        by_cases h3 : K' = K
        · by_cases h4 : cid' = cid
          · exact absurd ⟨h3, h4⟩ h
          · simp [h4]
        · simp [h3]
      rw [if_neg (by simp [hne])]
      rfl
    · exact List.map_id _
  · show ((s.drafts ++ [_]).filter (draftKey K' cid')) = _
    rw [List.filter_append]
    have hnew : draftKey K' cid'
        (⟨s.nextId, K, cid, subj, b, sku, "generated"⟩ : EmailDraft) = false := by
      simp only [draftKey]
      show (K == K' && cid == cid') = false
      by_cases h1 : K = K'
      · by_cases h2 : cid = cid'
        · exact absurd ⟨h1.symm, h2.symm⟩ h
        · simp [h2]
      · simp [h1]
    simp [hnew]

lemma draftKey_comp_update (K cid K' cid' : Nat) (subj b : String) (sku : Option String) :
    ((draftKey K' cid') ∘ (fun d : EmailDraft =>
      if draftKey K cid d then
        { d with subject := subj, body := b, recommendedSku := sku }
      else d)) = draftKey K' cid' := by
  funext d
  by_cases hd : draftKey K cid d = true
  · simp only [Function.comp, hd, if_true]
    rfl
  · simp only [Function.comp, hd, if_false]
    rw [if_neg (by simp [hd])]

lemma any_draftKey_iff {ds : List EmailDraft} {K cid : Nat} :
    ds.any (draftKey K cid) = true ↔ draftsFor ds K cid ≠ [] := by
  rw [List.any_eq_true]
  constructor
  · rintro ⟨d, hd, hp⟩ hnil
    rw [draftsFor, List.filter_eq_nil_iff] at hnil
    exact hnil d hd (by simp [hp])
  · intro hne
    obtain ⟨d, hd⟩ := List.exists_mem_of_ne_nil _ hne
    have hm := List.mem_filter.mp hd
    exact ⟨d, hm.1, hm.2⟩

lemma upsertDraft_draftsFor_self_len {s : Store} {K cid : Nat}
    {subj b : String} {sku : Option String} :
    (draftsFor (upsertDraft s K cid subj b sku).drafts K cid).length
      = if (draftsFor s.drafts K cid).length = 0 then 1
        else (draftsFor s.drafts K cid).length := by
  unfold upsertDraft
  split
  case isTrue hany =>
    have hne : draftsFor s.drafts K cid ≠ [] := any_draftKey_iff.mp hany
    have hlen0 : ¬((draftsFor s.drafts K cid).length = 0) := by
      intro h0
      exact hne (List.length_eq_zero.mp h0)
    rw [if_neg hlen0]
    show (((s.drafts.map _).filter (draftKey K cid))).length = _
    rw [List.filter_map, draftKey_comp_update, List.length_map]
    rfl
  case isFalse hany =>
    have hnil : draftsFor s.drafts K cid = [] := by
      by_contra hne
      exact hany (any_draftKey_iff.mpr hne)
    rw [if_pos (by rw [hnil]; rfl)]
    show (((s.drafts ++ [_]).filter (draftKey K cid))).length = 1
    rw [List.filter_append]
    have : draftsFor s.drafts K cid = [] := hnil
    rw [draftsFor] at this
    rw [this]
    have hnew : draftKey K cid
        (⟨s.nextId, K, cid, subj, b, sku, "generated"⟩ : EmailDraft) = true := by
      simp [draftKey]
    simp [hnew]

lemma upsertDraft_fields_self {s : Store} {K cid : Nat}
    {subj b : String} {sku : Option String} :
    ∀ d ∈ draftsFor (upsertDraft s K cid subj b sku).drafts K cid,
      d.subject = subj ∧ d.body = b ∧ d.recommendedSku = sku := by
  intro d hd
  unfold upsertDraft at hd
  split at hd
  case isTrue hany =>
    have hd' : d ∈ (s.drafts.map (fun d =>
        if draftKey K cid d then
          { d with subject := subj, body := b, recommendedSku := sku }
        else d)).filter (draftKey K cid) := hd
    rw [List.filter_map, draftKey_comp_update] at hd'
    obtain ⟨d0, hd0, rfl⟩ := List.mem_map.mp hd'
    have hp := (List.mem_filter.mp hd0).2
    rw [if_pos hp]
    exact ⟨rfl, rfl, rfl⟩
  case isFalse hany =>
    have hnil : s.drafts.filter (draftKey K cid) = [] := by
      by_contra hne
      exact hany (any_draftKey_iff.mpr hne)
    have hd' : d ∈ (s.drafts ++
        [(⟨s.nextId, K, cid, subj, b, sku, "generated"⟩ : EmailDraft)]).filter
        (draftKey K cid) := hd
    rw [List.filter_append, hnil, List.nil_append] at hd'
    have hm := List.mem_filter.mp hd'
    have : d = (⟨s.nextId, K, cid, subj, b, sku, "generated"⟩ : EmailDraft) := by
      simpa using hm.1
    subst this
    exact ⟨rfl, rfl, rfl⟩

lemma upsertDraft_length_of_nonempty {s : Store} {K cid : Nat}
    {subj b : String} {sku : Option String}
    (h : draftsFor s.drafts K cid ≠ []) :
    (upsertDraft s K cid subj b sku).drafts.length = s.drafts.length := by
  unfold upsertDraft
  rw [if_pos (any_draftKey_iff.mpr h)]
  show (s.drafts.map _).length = _
  rw [List.length_map]

lemma upsertDraft_nonempty_preserved {s : Store} {K cid K' cid' : Nat}
    {subj b : String} {sku : Option String}
    (h : draftsFor s.drafts K' cid' ≠ []) :
    draftsFor (upsertDraft s K cid subj b sku).drafts K' cid' ≠ [] := by
  by_cases hk : K' = K ∧ cid' = cid
  · rcases hk with ⟨rfl, rfl⟩
    intro hnil
    have := @upsertDraft_draftsFor_self_len s K' cid' subj b sku
    rw [hnil] at this
    simp only [List.length_nil] at this
    have hlen : ¬((draftsFor s.drafts K' cid').length = 0) := by
      intro h0
      exact h (List.length_eq_zero.mp h0)
    rw [if_neg hlen] at this
    exact hlen this.symm
  · rw [upsertDraft_draftsFor_ne hk]
    exact h

-- facts about the generation loop fold

lemma draftStep_eq (re : List Event) (K : Nat) (acc : Store) (c : Nat × String) :
    draftStep re K acc c = upsertDraft acc K c.1 (draftFieldsFor re c).1
      (draftFieldsFor re c).2.1 (draftFieldsFor re c).2.2 := rfl

lemma foldl_draftStep_events (re : List Event) (K : Nat) :
    ∀ (cs : List (Nat × String)) (s : Store),
      (cs.foldl (draftStep re K) s).events = s.events := by
  intro cs
  induction cs with
  | nil => intro s; rfl
  | cons c rest ih =>
    intro s
    rw [List.foldl_cons, ih, draftStep_eq, upsertDraft_events]

lemma foldl_draftStep_customers (re : List Event) (K : Nat) :
    ∀ (cs : List (Nat × String)) (s : Store),
      (cs.foldl (draftStep re K) s).customers = s.customers := by
  intro cs
  induction cs with
  | nil => intro s; rfl
  | cons c rest ih =>
    intro s
    rw [List.foldl_cons, ih, draftStep_eq, upsertDraft_customers]

lemma foldl_draftStep_campaigns (re : List Event) (K : Nat) :
    ∀ (cs : List (Nat × String)) (s : Store),
      (cs.foldl (draftStep re K) s).campaigns = s.campaigns := by
  intro cs
  induction cs with
  | nil => intro s; rfl
  | cons c rest ih =>
    intro s
    rw [List.foldl_cons, ih, draftStep_eq, upsertDraft_campaigns]

lemma foldl_draftStep_draftsFor_ne (re : List Event) (K : Nat) :
    ∀ (cs : List (Nat × String)) (s : Store) (K' cid' : Nat),
      (∀ c ∈ cs, ¬(K' = K ∧ cid' = c.1)) →
      draftsFor ((cs.foldl (draftStep re K) s).drafts) K' cid'
        = draftsFor s.drafts K' cid' := by
  intro cs
  induction cs with
  | nil => intro s K' cid' _; rfl
  | cons c rest ih =>
    intro s K' cid' h
    rw [List.foldl_cons, ih _ _ _ (fun c2 hc2 => h c2 (List.mem_cons_of_mem _ hc2)),
      draftStep_eq, upsertDraft_draftsFor_ne (h c (List.mem_cons_self _ _))]

lemma foldl_draftStep_self (re : List Event) (K : Nat) :
    ∀ (cs : List (Nat × String)) (s : Store),
      (cs.map (·.1)).Nodup →
      ∀ c ∈ cs,
        ((draftsFor ((cs.foldl (draftStep re K) s).drafts) K c.1).length
          = if (draftsFor s.drafts K c.1).length = 0 then 1
            else (draftsFor s.drafts K c.1).length) ∧
        (∀ d ∈ draftsFor ((cs.foldl (draftStep re K) s).drafts) K c.1,
          d.subject = (draftFieldsFor re c).1 ∧ d.body = (draftFieldsFor re c).2.1 ∧
            d.recommendedSku = (draftFieldsFor re c).2.2) := by
  intro cs
  induction cs with
  | nil => intro s _ c hc; exact absurd hc (List.not_mem_nil c)
  | cons c0 rest ih =>
    intro s hnodup c hc
    have hnotin : c0.1 ∉ rest.map (·.1) := by
      have := List.nodup_cons.mp hnodup
      exact this.1
    have hrest : (rest.map (·.1)).Nodup := (List.nodup_cons.mp hnodup).2
    rcases List.mem_cons.mp hc with rfl | hcr
    · -- the head customer: later iterations do not touch its key
      have hne : ∀ c2 ∈ rest, ¬(K = K ∧ c.1 = c2.1) := by
        rintro c2 hc2 ⟨-, h2⟩
        exact hnotin (h2 ▸ List.mem_map_of_mem (·.1) hc2)
      rw [List.foldl_cons,
        foldl_draftStep_draftsFor_ne re K rest (draftStep re K s c) K c.1 hne,
        draftStep_eq]
      exact ⟨upsertDraft_draftsFor_self_len, upsertDraft_fields_self⟩
    · -- a later customer: the head iteration does not touch its key
      have hne : ¬(K = K ∧ c.1 = c0.1) := by
        rintro ⟨-, h2⟩
        exact hnotin (h2 ▸ List.mem_map_of_mem (·.1) hcr)
      have := ih (draftStep re K s c0) hrest c hcr
      rw [List.foldl_cons]
      rw [draftStep_eq re K s c0] at this
      rw [upsertDraft_draftsFor_ne hne] at this
      exact this

lemma foldl_draftStep_length (re : List Event) (K : Nat) :
    ∀ (cs : List (Nat × String)) (s : Store),
      (∀ c ∈ cs, draftsFor s.drafts K c.1 ≠ []) →
      (cs.foldl (draftStep re K) s).drafts.length = s.drafts.length := by
  intro cs
  induction cs with
  | nil => intro s _; rfl
  | cons c0 rest ih =>
    intro s h
    rw [List.foldl_cons]
    rw [ih _ (fun c hc => by
      rw [draftStep_eq]
      exact upsertDraft_nonempty_preserved (h c (List.mem_cons_of_mem _ hc)))]
    rw [draftStep_eq]
    exact upsertDraft_length_of_nonempty (h c0 (List.mem_cons_self _ _))

-- ── Characterizations of the route bodies ──

lemma generateDrafts_noCampaign {now : Int} {s : Store} {K : Nat}
    (hf : s.campaigns.find? (fun c => c.id == K) = none) :
    generateDrafts now s K = (s, .error "Campaign not found") := by
  unfold generateDrafts
  rw [hf]

lemma generateDrafts_found {now : Int} {s : Store} {K : Nat} {camp : Campaign}
    (hf : s.campaigns.find? (fun c => c.id == K) = some camp) :
    generateDrafts now s K = generateDraftsForCampaign now s K camp := by
  unfold generateDrafts
  rw [hf]

lemma generateDraftsForCampaign_invalid {now : Int} {s : Store} {K : Nat}
    {camp : Campaign} {e : String}
    (hv : validateSegmentDefinition camp.segmentSnapshot = .error e) :
    generateDraftsForCampaign now s K camp
      = (s, .error ("Invalid segment snapshot: " ++ e)) := by
  unfold generateDraftsForCampaign
  rw [hv]

lemma generateDraftsForCampaign_valid {now : Int} {s : Store} {K : Nat}
    {camp : Campaign} {defn : SegmentDefinition}
    (hv : validateSegmentDefinition camp.segmentSnapshot = .ok defn) :
    generateDraftsForCampaign now s K camp
      = generateDraftsValidated now s K defn := by
  unfold generateDraftsForCampaign
  rw [hv]

lemma generateDraftsValidated_empty {now : Int} {s : Store} {K : Nat}
    {defn : SegmentDefinition}
    (he : (evaluateSegment now s.events s.customers defn).customers.isEmpty = true) :
    generateDraftsValidated now s K defn = (s, .ok 0) := by
  simp only [generateDraftsValidated]
  rw [if_pos he]

lemma generateDraftsValidated_nonempty {now : Int} {s : Store} {K : Nat}
    {defn : SegmentDefinition}
    (he : (evaluateSegment now s.events s.customers defn).customers.isEmpty = false) :
    generateDraftsValidated now s K defn
      = ({ ((evaluateSegment now s.events s.customers defn).customers.foldl
            (draftStep (recentEventsFor now s.events
              ((evaluateSegment now s.events s.customers defn).customers.map (·.1))) K) s) with
          campaigns :=
            (((evaluateSegment now s.events s.customers defn).customers.foldl
              (draftStep (recentEventsFor now s.events
                ((evaluateSegment now s.events s.customers defn).customers.map (·.1))) K) s).campaigns.map
              (fun cp => if cp.id == K then { cp with status := "drafted" } else cp)) },
         .ok (evaluateSegment now s.events s.customers defn).customers.length) := by
  simp only [generateDraftsValidated]
  rw [if_neg (by simp [he])]

lemma campaigns_find_after_update {cs : List Campaign} {K : Nat} {camp : Campaign}
    (hf : cs.find? (fun c => c.id == K) = some camp) (st : String) :
    (cs.map (fun cp => if cp.id == K then { cp with status := st } else cp)).find?
      (fun c => c.id == K) = some { camp with status := st } := by
  rw [List.find?_map]
  have hcomp : ((fun c : Campaign => c.id == K) ∘
      (fun cp => if cp.id == K then { cp with status := st } else cp))
      = (fun c : Campaign => c.id == K) := by
    funext cp
    by_cases hc : (cp.id == K) = true
    · simp [Function.comp, hc]
    · simp [Function.comp, hc]
  rw [hcomp, hf]
  have hid := List.find?_some hf
  simp [Option.map, hid]

lemma sendCampaign_noCampaign {now : Int} {s : Store} {K : Nat}
    (hf : s.campaigns.find? (fun c => c.id == K) = none) :
    sendCampaign now s K = (s, .error "Campaign not found") := by
  unfold sendCampaign
  rw [hf]

lemma sendCampaign_found {now : Int} {s : Store} {K : Nat} {camp : Campaign}
    (hf : s.campaigns.find? (fun c => c.id == K) = some camp) :
    sendCampaign now s K = sendCampaignFound now s K := by
  unfold sendCampaign
  rw [hf]

lemma upsertSendSent_campaigns (now : Int) (s : Store) (K cid : Nat) :
    (upsertSendSent now s K cid).campaigns = s.campaigns := by
  unfold upsertSendSent; split <;> rfl

lemma sendStep_eq (now : Int) (K : Nat) (acc : Store × Nat × Nat) (d : EmailDraft) :
    sendStep now K acc d
      = (upsertSendSent now acc.1 K d.customerId, acc.2.1 + 1, acc.2.2) := rfl

lemma foldl_sendStep (now : Int) (K : Nat) :
    ∀ (ds : List EmailDraft) (acc : Store × Nat × Nat),
      ((ds.foldl (sendStep now K) acc).1.campaigns = acc.1.campaigns) ∧
      ((ds.foldl (sendStep now K) acc).2.2 = acc.2.2) := by
  intro ds
  induction ds with
  | nil => intro acc; exact ⟨rfl, rfl⟩
  | cons d rest ih =>
    intro acc
    rw [List.foldl_cons, sendStep_eq]
    refine ⟨?_, (ih _).2⟩
    rw [(ih _).1]
    exact upsertSendSent_campaigns now acc.1 K d.customerId

lemma sendFold_campaigns (now : Int) (K : Nat) (s : Store) (ds : List EmailDraft) :
    (sendFold now K s ds).1.campaigns = s.campaigns :=
  (foldl_sendStep now K ds (s, 0, 0)).1

lemma sendFold_failed (now : Int) (K : Nat) (s : Store) (ds : List EmailDraft) :
    (sendFold now K s ds).2.2 = 0 :=
  (foldl_sendStep now K ds (s, 0, 0)).2

lemma sendFinish_status {K : Nat} {result : Store × Nat × Nat} {camp : Campaign}
    (hf : result.1.campaigns.find? (fun c => c.id == K) = some camp)
    (hfail : result.2.2 = 0) :
    campaignStatus (sendFinish K result).1 K = some "sent" := by
  unfold campaignStatus
  show (((result.1.campaigns.map (fun cp =>
      if cp.id == K then
        { cp with status :=
            if result.2.2 == 0 then "sent"
            else if result.2.1 == 0 then "failed" else "sent" }
      else cp)).find? (fun c => c.id == K)).map (·.status)) = some "sent"
  rw [campaigns_find_after_update hf]
  show some (if result.2.2 == 0 then "sent"
    else if result.2.1 == 0 then "failed" else "sent") = some "sent"
  rw [hfail]
  rfl

lemma sendCampaignFound_empty {now : Int} {s : Store} {K : Nat}
    (he : (s.drafts.filter
      (fun d => d.campaignId == K && d.status == "approved")).isEmpty = true) :
    sendCampaignFound now s K = (s, .error "No approved drafts to send") := by
  simp only [sendCampaignFound]
  rw [if_pos he]

/-- C3 is corrected by this concrete run: a campaign already in status
`sent`, whose snapshot still matches one customer — re-running draft
generation moves it back to `drafted`, a backward transition. -/
def c3Store : Store :=
  ⟨[⟨1, "a@x.example"⟩],
   [⟨5, 1, "page_view", .obj [], 0, none⟩],
   [⟨7, .obj [("kind", .str "event_type_in_last_days"),
              ("eventType", .str "page_view"),
              ("days", .num 30)], "sent"⟩],
   [], [], 10⟩

/-- C3 counterexample: the campaign status moves backward from `sent` to
`drafted` when draft generation is re-run. -/
theorem c3_sent_back_to_drafted :
    campaignStatus c3Store 7 = some "sent" ∧
    campaignStatus (generateDrafts 0 c3Store 7).1 7 = some "drafted" := by
  constructor
  · rfl
  · decide

/-- C3 (amended): the campaign status nominally follows
draft → drafted → sending → sent/failed, but the transitions are not
guarded: draft generation sets the status to `drafted` whenever at least
one draft is processed regardless of the previous status (so a `sent`
campaign returns to `drafted`, as the counterexample shows), and the send
route sets it to `sent`.  After draft generation the status is unchanged
or `drafted`; after a send it is unchanged or `sent`. -/
theorem c3_status_not_forward_only (now : Int) (s : Store) (K : Nat) :
    (campaignStatus (generateDrafts now s K).1 K = campaignStatus s K ∨
     campaignStatus (generateDrafts now s K).1 K = some "drafted") ∧
    (campaignStatus (sendCampaign now s K).1 K = campaignStatus s K ∨
     campaignStatus (sendCampaign now s K).1 K = some "sent") := by
  constructor
  · cases hf : s.campaigns.find? (fun c => c.id == K) with
    | none =>
      rw [generateDrafts_noCampaign hf]
      exact Or.inl rfl
    | some camp =>
      rw [generateDrafts_found hf]
      cases hv : validateSegmentDefinition camp.segmentSnapshot with
      | error e =>
        rw [generateDraftsForCampaign_invalid hv]
        exact Or.inl rfl
      | ok defn =>
        rw [generateDraftsForCampaign_valid hv]
        cases he : (evaluateSegment now s.events s.customers defn).customers.isEmpty with
        | true =>
          rw [generateDraftsValidated_empty he]
          exact Or.inl rfl
        | false =>
          rw [generateDraftsValidated_nonempty he]
          right
          unfold campaignStatus
          have hpres := foldl_draftStep_campaigns
            (recentEventsFor now s.events
              ((evaluateSegment now s.events s.customers defn).customers.map (·.1))) K
            (evaluateSegment now s.events s.customers defn).customers s
          show (((((evaluateSegment now s.events s.customers defn).customers.foldl
              (draftStep (recentEventsFor now s.events
                ((evaluateSegment now s.events s.customers defn).customers.map (·.1))) K) s).campaigns.map
              (fun cp => if cp.id == K then { cp with status := "drafted" } else cp)).find?
              (fun c => c.id == K)).map (·.status)) = some "drafted"
          rw [hpres, campaigns_find_after_update hf]
          rfl
  · cases hf : s.campaigns.find? (fun c => c.id == K) with
    | none =>
      rw [sendCampaign_noCampaign hf]
      exact Or.inl rfl
    | some camp =>
      rw [sendCampaign_found hf]
      cases he : (s.drafts.filter
          (fun d => d.campaignId == K && d.status == "approved")).isEmpty with
      | true =>
        rw [sendCampaignFound_empty he]
        exact Or.inl rfl
      | false =>
        right
        have hne : sendCampaignFound now s K
            = sendFinish K (sendFold now K s
              (s.drafts.filter (fun d => d.campaignId == K && d.status == "approved"))) := by
          simp only [sendCampaignFound]
          rw [if_neg (by simp [he])]
        rw [hne]
        apply sendFinish_status
        · rw [sendFold_campaigns]
          exact hf
        · exact sendFold_failed now K s _

-- ── Idempotent regeneration (C4) ──

/-- The database's unique constraint on (campaignId, customerId): at most
one draft per key. -/
def DraftsUnique (s : Store) : Prop :=
  ∀ K cid : Nat, (draftsFor s.drafts K cid).length ≤ 1

/-- The database's primary-key constraint on customers. -/
def CustomersUnique (s : Store) : Prop := (s.customers.map (·.id)).Nodup

lemma processedCustomers_noCampaign {now : Int} {s : Store} {K : Nat}
    (hf : s.campaigns.find? (fun c => c.id == K) = none) :
    processedCustomers now s K = [] := by
  unfold processedCustomers
  rw [hf]

lemma processedCustomers_invalid {now : Int} {s : Store} {K : Nat}
    {camp : Campaign} {e : String}
    (hf : s.campaigns.find? (fun c => c.id == K) = some camp)
    (hv : validateSegmentDefinition camp.segmentSnapshot = .error e) :
    processedCustomers now s K = [] := by
  unfold processedCustomers
  rw [hf]
  show (match validateSegmentDefinition camp.segmentSnapshot with
    | .error _ => ([] : List (Nat × String))
    | .ok defn => (evaluateSegment now s.events s.customers defn).customers) = []
  rw [hv]

lemma processedCustomers_valid {now : Int} {s : Store} {K : Nat}
    {camp : Campaign} {defn : SegmentDefinition}
    (hf : s.campaigns.find? (fun c => c.id == K) = some camp)
    (hv : validateSegmentDefinition camp.segmentSnapshot = .ok defn) :
    processedCustomers now s K
      = (evaluateSegment now s.events s.customers defn).customers := by
  unfold processedCustomers
  rw [hf]
  show (match validateSegmentDefinition camp.segmentSnapshot with
    | .error _ => ([] : List (Nat × String))
    | .ok defn => (evaluateSegment now s.events s.customers defn).customers)
    = (evaluateSegment now s.events s.customers defn).customers
  rw [hv]

/-- The preview's customer ids are pairwise distinct when customer ids
are unique in the store. -/
lemma evaluateSegment_fst_nodup (now : Int) (events : List Event)
    {customers : List Customer} (hc : (customers.map (·.id)).Nodup)
    (defn : SegmentDefinition) :
    ((evaluateSegment now events customers defn).customers.map (·.1)).Nodup := by
  unfold evaluateSegment fetchCustomers
  by_cases hemp : (matchingCustomerIds now events defn).isEmpty
  · rw [if_pos hemp]
    exact List.nodup_nil
  · rw [if_neg hemp]
    simp only
    rw [List.map_map]
    have hcomp : ((·.1) ∘ (fun c : Customer => ((c.id, c.email) : Nat × String)))
        = (·.id) := rfl
    rw [hcomp]
    have h1 : ((customers.filter
        (fun c => (matchingCustomerIds now events defn).contains c.id)).map (·.id)).Nodup :=
      hc.sublist ((List.filter_sublist _).map _)
    have h2 : (((customers.filter
        (fun c => (matchingCustomerIds now events defn).contains c.id)).insertionSort
          (fun a b => lexLe a.email.data b.email.data = true)).map (·.id)).Nodup := by
      have hperm := List.perm_insertionSort
        (fun a b : Customer => lexLe a.email.data b.email.data = true)
        (customers.filter (fun c => (matchingCustomerIds now events defn).contains c.id))
      exact ((hperm.map (·.id)).nodup_iff).mpr h1
    exact h2.sublist ((List.take_sublist _ _).map _)

/-- Helper: an at-most-one count becomes exactly one after an upsert. -/
lemma upsert_count_one {n : Nat} (h : n ≤ 1) :
    (if n = 0 then 1 else n) = 1 := by
  by_cases h0 : n = 0
  · rw [if_pos h0]
  · rw [if_neg h0]
    omega

/-- Shared core: re-running draft generation creates no new rows and
leaves exactly one draft per processed customer, with the second run's
field values. -/
lemma regenerate_updates_in_place_core (now : Int) (s : Store) (K : Nat)
    (hu : DraftsUnique s) (hc : CustomersUnique s) :
    ((generateDrafts now (generateDrafts now s K).1 K).1.drafts.length
      = (generateDrafts now s K).1.drafts.length) ∧
    (∀ c ∈ processedCustomers now s K,
      (draftsFor ((generateDrafts now (generateDrafts now s K).1 K).1.drafts) K c.1).length = 1 ∧
      (∀ d ∈ draftsFor ((generateDrafts now (generateDrafts now s K).1 K).1.drafts) K c.1,
        d.subject = (draftFieldsFor (recentEventsFor now s.events
          ((processedCustomers now s K).map (·.1))) c).1 ∧
        d.body = (draftFieldsFor (recentEventsFor now s.events
          ((processedCustomers now s K).map (·.1))) c).2.1 ∧
        d.recommendedSku = (draftFieldsFor (recentEventsFor now s.events
          ((processedCustomers now s K).map (·.1))) c).2.2)) := by
  cases hf : s.campaigns.find? (fun c => c.id == K) with
  | none =>
    have hfst : (generateDrafts now s K).1 = s := by
      rw [generateDrafts_noCampaign hf]
    rw [processedCustomers_noCampaign hf]
    refine ⟨?_, fun c hcm => absurd hcm (List.not_mem_nil c)⟩
    rw [hfst, hfst]
  | some camp =>
    cases hv : validateSegmentDefinition camp.segmentSnapshot with
    | error e =>
      have hfst : (generateDrafts now s K).1 = s := by
        rw [generateDrafts_found hf, generateDraftsForCampaign_invalid hv]
      rw [processedCustomers_invalid hf hv]
      refine ⟨?_, fun c hcm => absurd hcm (List.not_mem_nil c)⟩
      rw [hfst, hfst]
    | ok defn =>
      cases he : (evaluateSegment now s.events s.customers defn).customers.isEmpty with
      | true =>
        have hfst : (generateDrafts now s K).1 = s := by
          rw [generateDrafts_found hf, generateDraftsForCampaign_valid hv,
            generateDraftsValidated_empty he]
        have hproc : processedCustomers now s K = [] := by
          rw [processedCustomers_valid hf hv]
          exact List.isEmpty_iff.mp he
        rw [hproc]
        refine ⟨?_, fun c hcm => absurd hcm (List.not_mem_nil c)⟩
        rw [hfst, hfst]
      | false =>
        -- abbreviations for the preview list, the recent events, and the
        -- store after the first run's loop
        have hproc : processedCustomers now s K
            = (evaluateSegment now s.events s.customers defn).customers :=
          processedCustomers_valid hf hv
        rw [hproc]
        set P := (evaluateSegment now s.events s.customers defn).customers with hP
        set re := recentEventsFor now s.events (P.map (·.1)) with hre
        set F := P.foldl (draftStep re K) s with hF
        have hr1 : generateDrafts now s K
            = ({ F with campaigns :=
                (F.campaigns.map (fun cp =>
                  if cp.id == K then { cp with status := "drafted" } else cp)) },
               .ok P.length) := by
          rw [generateDrafts_found hf, generateDraftsForCampaign_valid hv]
          exact generateDraftsValidated_nonempty he
        set S3 : Store := { F with campaigns :=
            (F.campaigns.map (fun cp =>
              if cp.id == K then { cp with status := "drafted" } else cp)) } with hS3
        -- facts about the store after the first run
        have hS3events : S3.events = s.events := by
          rw [hS3]
          show F.events = s.events
          rw [hF]
          exact foldl_draftStep_events re K P s
        have hS3customers : S3.customers = s.customers := by
          rw [hS3]
          show F.customers = s.customers
          rw [hF]
          exact foldl_draftStep_customers re K P s
        have hS3drafts : S3.drafts = F.drafts := rfl
        have hFcampaigns : F.campaigns = s.campaigns := by
          rw [hF]
          exact foldl_draftStep_campaigns re K P s
        have hPnodup : (P.map (·.1)).Nodup := by
          rw [hP]
          exact evaluateSegment_fst_nodup now s.events hc defn
        -- the second run sees the same campaign, snapshot and preview
        have hf2 : S3.campaigns.find? (fun c => c.id == K)
            = some { camp with status := "drafted" } := by
          show (F.campaigns.map (fun cp =>
            if cp.id == K then { cp with status := "drafted" } else cp)).find?
            (fun c => c.id == K) = some { camp with status := "drafted" }
          rw [hFcampaigns]
          exact campaigns_find_after_update hf "drafted"
        have hv2 : validateSegmentDefinition
            ({ camp with status := "drafted" } : Campaign).segmentSnapshot = .ok defn := hv
        have hpreview2 : evaluateSegment now S3.events S3.customers defn
            = evaluateSegment now s.events s.customers defn := by
          rw [hS3events, hS3customers]
        have he2 : (evaluateSegment now S3.events S3.customers defn).customers.isEmpty
            = false := by rw [hpreview2]; exact he
        have hre2 : recentEventsFor now S3.events
            ((evaluateSegment now S3.events S3.customers defn).customers.map (·.1)) = re := by
          rw [hpreview2, hS3events, hre, hP]
        have hr2 : generateDrafts now S3 K
            = ({ ((evaluateSegment now S3.events S3.customers defn).customers.foldl
                  (draftStep (recentEventsFor now S3.events
                    ((evaluateSegment now S3.events S3.customers defn).customers.map (·.1))) K) S3) with
                campaigns :=
                  (((evaluateSegment now S3.events S3.customers defn).customers.foldl
                    (draftStep (recentEventsFor now S3.events
                      ((evaluateSegment now S3.events S3.customers defn).customers.map (·.1))) K) S3).campaigns.map
                    (fun cp => if cp.id == K then { cp with status := "drafted" } else cp)) },
               .ok (evaluateSegment now S3.events S3.customers defn).customers.length) := by
          rw [generateDrafts_found hf2, generateDraftsForCampaign_valid hv2]
          exact generateDraftsValidated_nonempty he2
        rw [hr1]
        rw [show ((({ F with campaigns :=
            (F.campaigns.map (fun cp =>
              if cp.id == K then { cp with status := "drafted" } else cp)) } : Store),
            (Except.ok P.length : Except String Nat)).1) = S3 from rfl]
        rw [hr2, hpreview2, ← hP, hS3events, ← hre]
        -- the second run's loop runs over the same customers with the
        -- same fields, starting from S3
        constructor
        · -- no new rows in the second run
          show (P.foldl (draftStep re K) S3).drafts.length = S3.drafts.length
          apply foldl_draftStep_length
          intro c hcm
          rw [hS3drafts, hF]
          intro hnil
          have hself := (foldl_draftStep_self re K P s hPnodup c hcm).1
          rw [hnil] at hself
          simp only [List.length_nil] at hself
          rw [upsert_count_one (hu K c.1)] at hself
          exact one_ne_zero hself.symm
        · intro c hcm
          have hbase : (draftsFor S3.drafts K c.1).length = 1 := by
            rw [hS3drafts, hF]
            rw [(foldl_draftStep_self re K P s hPnodup c hcm).1]
            exact upsert_count_one (hu K c.1)
          have hself2 := foldl_draftStep_self re K P S3 hPnodup c hcm
          constructor
          · show (draftsFor ((P.foldl (draftStep re K) S3)).drafts K c.1).length = 1
            rw [hself2.1, hbase]
            rfl
          · intro d hd
            exact hself2.2 d hd

/-- C4: re-running draft generation is idempotent on record count — the
second run creates no new draft rows (it updates in place, keyed by the
(campaign, customer) pair) — and after the two runs every processed
customer has exactly one `EmailDraft` whose subject, body and
recommendedSku equal the values computed by the (second) run.  The
hypotheses are the database's unique constraints: at most one draft per
(campaign, customer) pair and unique customer ids. -/
theorem c4_regenerate_updates_in_place (now : Int) (s : Store) (K : Nat)
    (hu : DraftsUnique s) (hc : CustomersUnique s) :
    ((generateDrafts now (generateDrafts now s K).1 K).1.drafts.length
      = (generateDrafts now s K).1.drafts.length) ∧
    (∀ c ∈ processedCustomers now s K,
      (draftsFor ((generateDrafts now (generateDrafts now s K).1 K).1.drafts) K c.1).length = 1 ∧
      (∀ d ∈ draftsFor ((generateDrafts now (generateDrafts now s K).1 K).1.drafts) K c.1,
        d.subject = (draftFieldsFor (recentEventsFor now s.events
          ((processedCustomers now s K).map (·.1))) c).1 ∧
        d.body = (draftFieldsFor (recentEventsFor now s.events
          ((processedCustomers now s K).map (·.1))) c).2.1 ∧
        d.recommendedSku = (draftFieldsFor (recentEventsFor now s.events
          ((processedCustomers now s K).map (·.1))) c).2.2)) :=
  regenerate_updates_in_place_core now s K hu hc

/-- Concrete store for the regeneration witness: one matching customer
with a recent event carrying a sku, campaign 7 in status draft. -/
def c4Store : Store :=
  ⟨[⟨1, "a@x.example"⟩],
   [⟨5, 1, "page_view", .obj [("sku", .str " W-1 ")], 0, none⟩],
   [⟨7, .obj [("kind", .str "event_type_in_last_days"),
              ("eventType", .str "page_view"),
              ("days", .num 30)], "draft"⟩],
   [], [], 10⟩

/-- Witness for `c4_regenerate_updates_in_place` at `c4Store`. -/
theorem c4_regenerate_updates_in_place_witness :
    DraftsUnique c4Store ∧ CustomersUnique c4Store ∧
    (((generateDrafts 0 (generateDrafts 0 c4Store 7).1 7).1.drafts.length
      = (generateDrafts 0 c4Store 7).1.drafts.length) ∧
    (∀ c ∈ processedCustomers 0 c4Store 7,
      (draftsFor ((generateDrafts 0 (generateDrafts 0 c4Store 7).1 7).1.drafts) 7 c.1).length = 1 ∧
      (∀ d ∈ draftsFor ((generateDrafts 0 (generateDrafts 0 c4Store 7).1 7).1.drafts) 7 c.1,
        d.subject = (draftFieldsFor (recentEventsFor 0 c4Store.events
          ((processedCustomers 0 c4Store 7).map (·.1))) c).1 ∧
        d.body = (draftFieldsFor (recentEventsFor 0 c4Store.events
          ((processedCustomers 0 c4Store 7).map (·.1))) c).2.1 ∧
        d.recommendedSku = (draftFieldsFor (recentEventsFor 0 c4Store.events
          ((processedCustomers 0 c4Store 7).map (·.1))) c).2.2))) :=
  ⟨fun _ _ => by simp [c4Store, draftsFor],
   by unfold CustomersUnique; decide,
   c4_regenerate_updates_in_place 0 c4Store 7
     (fun _ _ => by simp [c4Store, draftsFor]) (by unfold CustomersUnique; decide)⟩

-- ── Draft generation vs. the full matching set (C1) ──

/-- Counting: with unique customer ids, selecting the customers whose id
lies in a duplicate-free id list covered by the table yields exactly one
row per id. -/
lemma filter_ids_length {customers : List Customer}
    (hc : (customers.map (·.id)).Nodup) {ids : List Nat} (hn : ids.Nodup)
    (hsub : ∀ i ∈ ids, ∃ cu ∈ customers, cu.id = i) :
    (customers.filter (fun c => ids.contains c.id)).length = ids.length := by
  have h1 : (customers.filter (fun c => ids.contains c.id)).length
      = ((customers.map (·.id)).filter (fun i => ids.contains i)).length := by
    rw [List.filter_map, List.length_map]
    rfl
  rw [h1]
  have h2 : ((customers.map (·.id)).filter (fun i => ids.contains i)).Nodup :=
    hc.filter _
  have hperm := List.perm_of_nodup_nodup_toFinset_eq h2 hn (by
    ext i
    simp only [List.mem_toFinset, List.mem_filter]
    constructor
    · rintro ⟨-, hmem⟩
      simpa using hmem
    · intro hi
      refine ⟨?_, by simpa using hi⟩
      obtain ⟨cu, hcu, hid⟩ := hsub i hi
      rw [← hid]
      exact List.mem_map_of_mem _ hcu)
  exact hperm.length_eq

/-- When at most 50 customers match, the preview list contains a row for
every matching customer id (given referential integrity and unique ids). -/
lemma preview_covers_matching {now : Int} {s : Store} {defn : SegmentDefinition}
    (hc : CustomersUnique s)
    (hfk : ∀ e ∈ s.events, ∃ cu ∈ s.customers, cu.id = e.customerId)
    (hwf : defn.wf)
    (hcount : specMatchCount now s.events defn ≤ 50) :
    ∀ cid, cid ∈ (s.events.map (·.customerId)).dedup →
      customerMatches now s.events defn cid = true →
      ∃ c ∈ (evaluateSegment now s.events s.customers defn).customers, c.1 = cid := by
  intro cid hmem hmatch
  have hin : cid ∈ matchingCustomerIds now s.events defn :=
    (mem_matchingCustomerIds hwf).mpr ⟨hmem, hmatch⟩
  have hids_nodup := matchingCustomerIds_nodup now s.events defn
  have hids_sub : ∀ i ∈ matchingCustomerIds now s.events defn,
      ∃ cu ∈ s.customers, cu.id = i := by
    intro i hi
    have := ((mem_matchingCustomerIds hwf).mp hi).1
    obtain ⟨e, he, hid⟩ := List.mem_map.mp (List.mem_dedup.mp this)
    obtain ⟨cu, hcu, hcuid⟩ := hfk e he
    exact ⟨cu, hcu, by rw [hcuid, hid]⟩
  have hlen : (s.customers.filter
      (fun c => (matchingCustomerIds now s.events defn).contains c.id)).length
      = (matchingCustomerIds now s.events defn).length :=
    filter_ids_length hc hids_nodup hids_sub
  have hle50 : (matchingCustomerIds now s.events defn).length ≤ 50 := by
    rw [matchingCustomerIds_length now s.events defn hwf]
    exact hcount
  -- the customer row for cid
  obtain ⟨cu, hcu, hcuid⟩ := hids_sub cid hin
  have hcufilter : cu ∈ s.customers.filter
      (fun c => (matchingCustomerIds now s.events defn).contains c.id) := by
    rw [List.mem_filter]
    exact ⟨hcu, by rw [hcuid]; simpa using hin⟩
  -- evaluateSegment: non-empty ids, so the non-trivial branch
  have hne : ¬((matchingCustomerIds now s.events defn).isEmpty = true) := by
    intro hempty
    rw [List.isEmpty_iff.mp hempty] at hin
    exact List.not_mem_nil cid hin
  unfold evaluateSegment fetchCustomers
  rw [if_neg hne]
  simp only
  have hsortperm := List.perm_insertionSort
    (fun a b : Customer => lexLe a.email.data b.email.data = true)
    (s.customers.filter (fun c => (matchingCustomerIds now s.events defn).contains c.id))
  have hsortlen : ((s.customers.filter
      (fun c => (matchingCustomerIds now s.events defn).contains c.id)).insertionSort
      (fun a b => lexLe a.email.data b.email.data = true)).length ≤ PREVIEW_LIMIT := by
    rw [hsortperm.length_eq, hlen]
    exact hle50
  rw [List.take_of_length_le hsortlen]
  refine ⟨(cu.id, cu.email), ?_, by rw [hcuid]⟩
  exact List.mem_map_of_mem _ (hsortperm.mem_iff.mpr hcufilter)

/-- Concrete store with 51 matching customers: ids 0–50, each with one
matching event; customer 50's email sorts last. -/
def c1Store : Store :=
  ⟨(List.range 51).map (fun i =>
     ⟨i, (if i < 50 then "a" else "z") ++ Nat.repr i ++ "@x.example"⟩),
   (List.range 51).map (fun i => ⟨100 + i, i, "page_view", .obj [], 0, none⟩),
   [⟨7, .obj [("kind", .str "event_type_in_last_days"),
              ("eventType", .str "page_view"),
              ("days", .num 30)], "draft"⟩],
   [], [], 1000⟩

set_option maxRecDepth 100000 in
/-- C1 counterexample: with 51 matching customers, draft generation
reports 50 drafts and the matching customer with id 50 (whose email sorts
past the 50-entry preview cap) receives no draft — so a draft is not
upserted for every matching customer at every matching-set size. -/
theorem c1_cap_misses_matching_customer :
    specMatchCount 0 c1Store.events (.eventTypeInLastDays "page_view" 30) = 51 ∧
    customerMatches 0 c1Store.events (.eventTypeInLastDays "page_view" 30) 50 = true ∧
    (generateDrafts 0 c1Store 7).2.toOption = some 50 ∧
    (draftsFor (generateDrafts 0 c1Store 7).1.drafts 7 50).length = 0 := by
  refine ⟨by decide, by decide, by decide, by decide⟩

/-- C1 (amended): when draft generation runs for a campaign with a valid
segment snapshot, a draft is upserted for every customer in the evaluated
preview — the first 50 matching customers ordered by email ascending, which
is the full matching set whenever at most 50 customers match — and
re-running still leaves exactly one `EmailDraft` per previewed customer;
for matching sets larger than 50 only the 50 previewed customers receive
drafts (see the counterexample). -/
theorem c1_drafts_cover_preview (now : Int) (s : Store) (K : Nat)
    (hu : DraftsUnique s) (hc : CustomersUnique s) :
    (∀ c ∈ processedCustomers now s K,
      (draftsFor (generateDrafts now s K).1.drafts K c.1).length = 1) ∧
    (∀ c ∈ processedCustomers now s K,
      (draftsFor (generateDrafts now (generateDrafts now s K).1 K).1.drafts K c.1).length = 1) ∧
    (∀ camp defn,
      s.campaigns.find? (fun c => c.id == K) = some camp →
      validateSegmentDefinition camp.segmentSnapshot = .ok defn →
      (∀ e ∈ s.events, ∃ cu ∈ s.customers, cu.id = e.customerId) →
      specMatchCount now s.events defn ≤ 50 →
      ∀ cid, cid ∈ (s.events.map (·.customerId)).dedup →
        customerMatches now s.events defn cid = true →
        ∃ c ∈ processedCustomers now s K, c.1 = cid) := by
  refine ⟨?_, ?_, ?_⟩
  · -- one draft per previewed customer after a single run
    cases hf : s.campaigns.find? (fun c => c.id == K) with
    | none =>
      rw [processedCustomers_noCampaign hf]
      exact fun c hcm => absurd hcm (List.not_mem_nil c)
    | some camp =>
      cases hv : validateSegmentDefinition camp.segmentSnapshot with
      | error e =>
        rw [processedCustomers_invalid hf hv]
        exact fun c hcm => absurd hcm (List.not_mem_nil c)
      | ok defn =>
        rw [processedCustomers_valid hf hv]
        cases he : (evaluateSegment now s.events s.customers defn).customers.isEmpty with
        | true =>
          rw [List.isEmpty_iff.mp he]
          exact fun c hcm => absurd hcm (List.not_mem_nil c)
        | false =>
          intro c hcm
          have hr1 : generateDrafts now s K
              = ({ ((evaluateSegment now s.events s.customers defn).customers.foldl
                    (draftStep (recentEventsFor now s.events
                      ((evaluateSegment now s.events s.customers defn).customers.map (·.1))) K) s) with
                  campaigns :=
                    (((evaluateSegment now s.events s.customers defn).customers.foldl
                      (draftStep (recentEventsFor now s.events
                        ((evaluateSegment now s.events s.customers defn).customers.map (·.1))) K) s).campaigns.map
                      (fun cp => if cp.id == K then { cp with status := "drafted" } else cp)) },
                 .ok (evaluateSegment now s.events s.customers defn).customers.length) := by
            rw [generateDrafts_found hf, generateDraftsForCampaign_valid hv]
            exact generateDraftsValidated_nonempty he
          rw [hr1]
          have hnodup : (((evaluateSegment now s.events s.customers defn).customers.map (·.1))).Nodup :=
            evaluateSegment_fst_nodup now s.events hc defn
          have hself := (foldl_draftStep_self
            (recentEventsFor now s.events
              ((evaluateSegment now s.events s.customers defn).customers.map (·.1))) K
            (evaluateSegment now s.events s.customers defn).customers s hnodup c hcm).1
          show (draftsFor (((evaluateSegment now s.events s.customers defn).customers.foldl
            (draftStep (recentEventsFor now s.events
              ((evaluateSegment now s.events s.customers defn).customers.map (·.1))) K) s)).drafts K c.1).length = 1
          rw [hself]
          exact upsert_count_one (hu K c.1)
  · -- one draft per previewed customer after re-running
    exact fun c hcm => ((regenerate_updates_in_place_core now s K hu hc).2 c hcm).1
  · -- coverage of the full matching set when it has at most 50 customers
    intro camp defn hf hv hfk hcount cid hmem hmatch
    rw [processedCustomers_valid hf hv]
    exact preview_covers_matching hc hfk (validate_wf hv) hcount cid hmem hmatch

/-- Witness for `c1_drafts_cover_preview` at `c4Store`. -/
theorem c1_drafts_cover_preview_witness :
    DraftsUnique c4Store ∧ CustomersUnique c4Store ∧
    ((∀ c ∈ processedCustomers 0 c4Store 7,
      (draftsFor (generateDrafts 0 c4Store 7).1.drafts 7 c.1).length = 1) ∧
    (∀ c ∈ processedCustomers 0 c4Store 7,
      (draftsFor (generateDrafts 0 (generateDrafts 0 c4Store 7).1 7).1.drafts 7 c.1).length = 1) ∧
    (∀ camp defn,
      c4Store.campaigns.find? (fun c => c.id == 7) = some camp →
      validateSegmentDefinition camp.segmentSnapshot = .ok defn →
      (∀ e ∈ c4Store.events, ∃ cu ∈ c4Store.customers, cu.id = e.customerId) →
      specMatchCount 0 c4Store.events defn ≤ 50 →
      ∀ cid, cid ∈ (c4Store.events.map (·.customerId)).dedup →
        customerMatches 0 c4Store.events defn cid = true →
        ∃ c ∈ processedCustomers 0 c4Store 7, c.1 = cid)) :=
  ⟨fun _ _ => by simp [c4Store, draftsFor],
   by unfold CustomersUnique; decide,
   c1_drafts_cover_preview 0 c4Store 7
     (fun _ _ => by simp [c4Store, draftsFor]) (by unfold CustomersUnique; decide)⟩

end CIPipeline
